import Mathlib

/-!
Verification development for the `sync_bahmni_db` management command of the
`ocl_omrs` repository (`omrs/management/commands/sync_bahmni_db.py`).

The command synchronizes an OpenMRS/Bahmni relational concept dictionary with
OCL-formatted line-delimited JSON files: `sync_db` materializes a batch of
concept records, then a batch of mapping records; `export_concept_mappings`
walks a relational concept's reference edges and emits mapping records.

The embedding below translates that Python code into pure Lean functions.
The relational store is a `DB` of per-table row lists; Django's
`Model.objects.filter(...)` followed by `rows[0]` becomes `List.find?`;
`save()` on a fresh model instance appends a row whose auto-assigned primary
key is `table.length + 1`; `uuid.uuid1()` and `datetime.datetime.now()` are
modelled by a `gensym` counter threaded through the state.  Fallible Python
operations (missing dictionary keys, list indexing, `int(...)`, Django
`get(...)`, the unbound local variable `cnt_ocl_mapref`) return `Except Err`.

Helpers imported by the command from `omrs.management.commands`
(`ConceptHelper.get_new_id`, `OclOpenmrsHelper` source-directory lookups) and
the `generate_internal_mapping` / `generate_external_mapping` methods are not
part of the sources; where needed they are modelled from the spec and marked
as such in their doc comments.
-/

namespace Omrs

/-- Python runtime errors the command can raise while processing a batch. -/
inductive Err where
  | keyError (k : String)
  | indexError
  | valueError
  | attributeError (m : String)
  | doesNotExist (model : String)
  | unboundLocal (v : String)
  | unresolvedId (oldId : Nat)
  deriving DecidableEq, Repr

/-- One entry of a concept record's `names` list. -/
structure NameRec where
  name : String
  name_type : String
  locale : String
  locale_preferred : Bool
  external_id : String
  deriving DecidableEq, Repr

/-- One entry of a concept record's `descriptions` list. -/
structure DescRec where
  description : String
  locale : String
  external_id : String
  deriving DecidableEq, Repr

/-- The `extras` object of an interchange concept record (sparse fields). -/
structure Extras where
  is_set : Option Bool := none
  hi_absolute : Option Int := none
  hi_critical : Option Int := none
  hi_normal : Option Int := none
  low_absolute : Option Int := none
  low_critical : Option Int := none
  low_normal : Option Int := none
  units : Option String := none
  precise : Option Bool := none
  display_precision : Option Int := none
  deriving DecidableEq, Repr

/-- An interchange concept record.  Each top-level JSON key is an `Option`:
`none` models an absent key, so `concept['k']` is a fallible access. -/
structure ConceptRecord where
  id : Option Nat := none
  concept_class : Option String := none
  datatype : Option String := none
  external_id : Option String := none
  retired : Option Bool := none
  names : Option (List NameRec) := none
  descriptions : Option (List DescRec) := none
  extras : Option Extras := none
  description : Option String := none
  deriving DecidableEq, Repr

/-- An interchange mapping record; keys are optional exactly as in the JSON. -/
structure MappingRecord where
  map_type : Option String := none
  from_concept_url : Option String := none
  to_concept_url : Option String := none
  to_source_url : Option String := none
  to_concept_code : Option String := none
  to_concept_name : Option String := none
  external_id : Option String := none
  deriving DecidableEq, Repr

/-! ## Relational rows (`omrs.models`) -/

structure ConceptClassRow where
  concept_class_id : Nat
  name : String
  retired : Bool
  creator : Nat
  date_created : Nat
  uuid : String
  deriving DecidableEq, Repr

structure ConceptDatatypeRow where
  concept_datatype_id : Nat
  name : String
  creator : Nat
  date_created : Nat
  deriving DecidableEq, Repr

structure ConceptRow where
  concept_id : Nat
  class_id : Nat
  datatype_id : Nat
  is_set : Bool
  uuid : String
  retired : Bool
  creator : Nat
  date_created : Nat
  description : Option String
  deriving DecidableEq, Repr

structure ConceptNameRow where
  concept_name_id : Nat
  concept_id : Nat
  name : String
  uuid : String
  concept_name_type : String
  locale : String
  locale_preferred : Bool
  creator : Nat
  voided : Bool
  date_created : Nat
  deriving DecidableEq, Repr

structure ConceptDescriptionRow where
  concept_description_id : Nat
  concept_id : Nat
  description : String
  uuid : String
  locale : String
  creator : Nat
  date_created : Nat
  deriving DecidableEq, Repr

structure ConceptNumericRow where
  concept_id : Nat
  hi_absolute : Option Int
  hi_critical : Option Int
  hi_normal : Option Int
  low_absolute : Option Int
  low_normal : Option Int
  units : Option String
  precise : Option Bool
  display_precision : Option Int
  creator : Nat
  date_created : Nat
  deriving DecidableEq, Repr

structure ConceptAnswerRow where
  concept_answer_id : Nat
  question_concept_id : Nat
  answer_concept_id : Nat
  uuid : String
  creator : Nat
  date_created : Nat
  deriving DecidableEq, Repr

structure ConceptSetRow where
  concept_set_id : Nat
  concept_id : Nat
  concept_set_owner_id : Nat
  uuid : String
  creator : Nat
  date_created : Nat
  deriving DecidableEq, Repr

structure ConceptReferenceSourceRow where
  concept_source_id : Nat
  name : String
  hl7_code : Option String
  creator : Nat
  retired : Bool
  uuid : String
  date_created : Nat
  deriving DecidableEq, Repr

structure ConceptReferenceTermRow where
  concept_reference_term_id : Nat
  code : String
  concept_source_id : Nat
  creator : Nat
  retired : Bool
  uuid : String
  date_created : Nat
  deriving DecidableEq, Repr

structure ConceptMapTypeRow where
  concept_map_type_id : Nat
  name : String
  creator : Nat
  uuid : String
  date_created : Nat
  deriving DecidableEq, Repr

structure ConceptReferenceMapRow where
  concept_map_id : Nat
  concept_reference_term_id : Nat
  concept_id : Nat
  uuid : String
  map_type_id : Nat
  creator : Nat
  date_created : Nat
  deriving DecidableEq, Repr

/-- The relational store: one list of rows per table, in insertion order. -/
structure DB where
  concept_classes : List ConceptClassRow := []
  datatypes : List ConceptDatatypeRow := []
  concepts : List ConceptRow := []
  concept_names : List ConceptNameRow := []
  concept_descriptions : List ConceptDescriptionRow := []
  concept_numerics : List ConceptNumericRow := []
  concept_answers : List ConceptAnswerRow := []
  concept_sets : List ConceptSetRow := []
  reference_sources : List ConceptReferenceSourceRow := []
  reference_terms : List ConceptReferenceTermRow := []
  map_types : List ConceptMapTypeRow := []
  reference_maps : List ConceptReferenceMapRow := []
  deriving DecidableEq, Repr

/-- Instrumentation events recording the order in which the run handles
records: a concept iteration of the `sync_db` loop, or the dispatch of a
mapping record down the internal / external branch of `sync_mapping`. -/
inductive Event where
  | conceptProcessed (c : ConceptRecord)
  | internalMapping (m : MappingRecord)
  | externalMapping (m : MappingRecord)
  deriving DecidableEq, Repr

/-- `true` exactly on the two mapping-dispatch events. -/
def Event.isMappingEvent : Event → Bool
  | .conceptProcessed _ => false
  | .internalMapping _ => true
  | .externalMapping _ => true

/-- Run state of the command: the store, a generator for fresh uuids and
timestamps, the identifier resolver entries (`concept['new_id']` assignments),
the instrumentation trace, and the command's counters. -/
structure SyncState where
  db : DB
  gensym : Nat := 0
  newIds : List (Nat × Nat) := []
  trace : List Event := []
  cnt_total_concepts_processed : Nat := 0
  cnt_concepts_created : Nat := 0
  deriving DecidableEq, Repr

/-- Command configuration.  `org_id` / `source_id` come from the CLI options.
The three lookup functions stand for `OclOpenmrsHelper.get_omrs_source_id_from_ocl_id`,
`get_ocl_source_id_from_omrs_id` and `get_source_owner_id`, which live in
`omrs/management/commands/__init__.py` and are not part of the sources;
modelled from the spec (§9: an injected source-directory lookup service). -/
structure Config where
  org_id : String
  source_id : String
  omrsIdOfOclId : String → String
  oclIdOfOmrsId : String → String
  ownerOfOclId : String → String

/-! ## Fallible primitives -/

/-- `record['k']`: a required dictionary access, raising `KeyError` when the
key is absent. -/
def reqField {α : Type} (k : String) (v : Option α) : Except Err α :=
  match v with
  | some a => .ok a
  | none => .error (.keyError k)

/-- Split a character list at every `'/'` (the segments of `s.split("/")`
over the characters of `s`). -/
def splitSlash (cs : List Char) : List (List Char) :=
  match cs with
  | [] => [[]]
  | c :: rest =>
    if c = '/' then [] :: splitSlash rest
    else
      match splitSlash rest with
      | [] => [[c]]
      | h :: t => (c :: h) :: t

/-- Python's `url.split("/")`: split on every slash, keeping empty segments. -/
def pySplit (s : String) : List String :=
  (splitSlash s.toList).map (fun cs => String.mk cs)

/-- `url.split("/")[i]`, raising `IndexError` when out of range. -/
def urlSeg (url : String) (i : Nat) : Except Err String :=
  match (pySplit url).get? i with
  | some s => .ok s
  | none => .error .indexError

/-- Parse a nonempty all-digit character list as a decimal number. -/
def digitsToNat (cs : List Char) (acc : Nat) : Option Nat :=
  match cs with
  | [] => some acc
  | c :: rest =>
    if 48 ≤ c.toNat ∧ c.toNat ≤ 57 then digitsToNat rest (acc * 10 + (c.toNat - 48))
    else none

/-- `int(s)` on a decimal literal, raising `ValueError` otherwise. -/
def pyInt (s : String) : Except Err Nat :=
  match s.toList with
  | [] => .error .valueError
  | cs =>
    match digitsToNat cs 0 with
    | some n => .ok n
    | none => .error .valueError

/-- A fresh uuid produced by `uuid.uuid1()`. -/
def genUuid (n : Nat) : String := "gen:" ++ toString n

/-! ## Concept import (`sync_concept`, source lines 235-311) -/

/-- `ConceptClass.objects.filter(name=...)` followed by taking the first row. -/
def lookupClass (n : String) (db : DB) : Option ConceptClassRow :=
  db.concept_classes.find? (fun r => r.name == n)

/-- Construct and save a new `ConceptClass` row (source lines 255-257). -/
def insertClass (n : String) (retired : Bool) (st : SyncState) :
    ConceptClassRow × SyncState :=
  let row : ConceptClassRow :=
    { concept_class_id := st.db.concept_classes.length + 1, name := n, retired := retired,
      creator := 1, date_created := st.gensym + 1, uuid := genUuid st.gensym }
  (row, { st with gensym := st.gensym + 2,
                  db := { st.db with concept_classes := st.db.concept_classes ++ [row] } })

/-- Source lines 250-257: find the concept class by name or create it. -/
def getConceptClass (c : ConceptRecord) (st : SyncState) :
    Except Err (ConceptClassRow × SyncState) := do
  let n ← reqField "concept_class" c.concept_class
  match lookupClass n st.db with
  | some r => .ok (r, st)
  | none => do
      let ret ← reqField "retired" c.retired
      .ok (insertClass n ret st)

/-- `ConceptDatatype.objects.filter(name=...)` followed by taking the first row. -/
def lookupDatatype (n : String) (db : DB) : Option ConceptDatatypeRow :=
  db.datatypes.find? (fun r => r.name == n)

/-- Construct and save a new `ConceptDatatype` row (source lines 264-265). -/
def insertDatatype (n : String) (st : SyncState) : ConceptDatatypeRow × SyncState :=
  let row : ConceptDatatypeRow :=
    { concept_datatype_id := st.db.datatypes.length + 1, name := n,
      creator := 1, date_created := st.gensym }
  (row, { st with gensym := st.gensym + 1,
                  db := { st.db with datatypes := st.db.datatypes ++ [row] } })

/-- Source lines 259-265: find the concept datatype by name or create it. -/
def getConceptDatatype (c : ConceptRecord) (st : SyncState) :
    Except Err (ConceptDatatypeRow × SyncState) := do
  let n ← reqField "datatype" c.datatype
  match lookupDatatype n st.db with
  | some r => .ok (r, st)
  | none => .ok (insertDatatype n st)

/-- `ConceptName.objects.filter(name=..., locale=..., locale_preferred=...)`
followed by taking the first row (source line 275). -/
def lookupConceptName (n : NameRec) (db : DB) : Option ConceptNameRow :=
  db.concept_names.find?
    (fun r => r.name == n.name && r.locale == n.locale &&
              r.locale_preferred == n.locale_preferred)

/-- `Concept.objects.get(concept_id=...)` (source line 278). -/
def conceptById (cid : Nat) (db : DB) : Except Err ConceptRow :=
  match db.concepts.find? (fun r => r.concept_id == cid) with
  | some r => .ok r
  | none => .error (.doesNotExist "Concept")

/-- Construct and save a new `Concept` row (source line 288). -/
def insertConcept (cl : ConceptClassRow) (dt : ConceptDatatypeRow) (isSet : Bool)
    (extId : String) (retired : Bool) (desc : Option String) (st : SyncState) :
    ConceptRow × SyncState :=
  let row : ConceptRow :=
    { concept_id := st.db.concepts.length + 1, class_id := cl.concept_class_id,
      datatype_id := dt.concept_datatype_id, is_set := isSet, uuid := extId,
      retired := retired, creator := 1, date_created := st.gensym, description := desc }
  (row, { st with gensym := st.gensym + 1,
                  db := { st.db with concepts := st.db.concepts ++ [row] } })

/-- Construct and save a new `ConceptName` row (source line 290). -/
def insertConceptName (cid : Nat) (n : NameRec) (st : SyncState) :
    ConceptNameRow × SyncState :=
  let row : ConceptNameRow :=
    { concept_name_id := st.db.concept_names.length + 1, concept_id := cid,
      name := n.name, uuid := n.external_id, concept_name_type := n.name_type,
      locale := n.locale, locale_preferred := n.locale_preferred, creator := 1,
      voided := false, date_created := st.gensym }
  (row, { st with gensym := st.gensym + 1,
                  db := { st.db with concept_names := st.db.concept_names ++ [row] } })

/-- The `for cname in cnames` loop of `sync_concept` (source lines 274-291):
thread the `cconcept` variable; a matching name row fetches its concept, an
absent one creates the concept (once) and the name row. -/
def processNames (c : ConceptRecord) (cl : ConceptClassRow) (dt : ConceptDatatypeRow)
    (isSet : Bool) (ns : List NameRec) (cc : Option ConceptRow) (st : SyncState) :
    Except Err (Option ConceptRow × SyncState) :=
  match ns with
  | [] => .ok (cc, st)
  | n :: rest =>
    match lookupConceptName n st.db with
    | some nr => do
        let found ← conceptById nr.concept_id st.db
        processNames c cl dt isSet rest (some found) st
    | none => do
        let (crow, st') ←
          match cc with
          | some r => Except.ok (r, st)
          | none => do
              let extId ← reqField "external_id" c.external_id
              let ret ← reqField "retired" c.retired
              Except.ok (insertConcept cl dt isSet extId ret c.description st)
        let st'' := (insertConceptName crow.concept_id n st').2
        processNames c cl dt isSet rest (some crow) st''

/-- Construct and save a new `ConceptDescription` row (source line 300). -/
def insertConceptDescription (cid : Nat) (d : DescRec) (st : SyncState) :
    ConceptDescriptionRow × SyncState :=
  let row : ConceptDescriptionRow :=
    { concept_description_id := st.db.concept_descriptions.length + 1, concept_id := cid,
      description := d.description, uuid := d.external_id, locale := d.locale,
      creator := 1, date_created := st.gensym }
  (row, { st with gensym := st.gensym + 1,
                  db := { st.db with concept_descriptions := st.db.concept_descriptions ++ [row] } })

/-- The `for cdescription in concept['descriptions']` loop (source lines 297-301). -/
def processDescs (cid : Nat) (ds : List DescRec) (st : SyncState) : SyncState :=
  match ds with
  | [] => st
  | d :: rest =>
    let st' :=
      match st.db.concept_descriptions.find?
          (fun r => r.concept_id == cid && r.description == d.description) with
      | some _ => st
      | none => (insertConceptDescription cid d st).2
    processDescs cid rest st'

/-- `sync_concept` (source lines 235-311).  Note on the numeric block (lines
303-311): the code constructs `ConceptNumeric(concept_id=...)` and then tests
`if numeric is None:`, which is never true for a freshly constructed object,
so the construction-and-save branch is unreachable and no `ConceptNumeric`
row is ever persisted; accordingly the embedding touches no
`concept_numerics` table entry. -/
def sync_concept (c : ConceptRecord) (st : SyncState) : Except Err SyncState := do
  let st := { st with cnt_concepts_created := st.cnt_concepts_created + 1 }
  let (cl, st) ← getConceptClass c st
  let (dt, st) ← getConceptDatatype c st
  let ns ← reqField "names" c.names
  let ex ← reqField "extras" c.extras
  let isSet := ex.is_set.getD false
  let (ccOpt, st) ← processNames c cl dt isSet ns none st
  let crow ←
    match ccOpt with
    | some r => Except.ok r
    | none => Except.error (Err.attributeError "concept_id")
  let st :=
    match c.id with
    | some i => { st with newIds := st.newIds ++ [(i, crow.concept_id)] }
    | none => st
  let ds ← reqField "descriptions" c.descriptions
  let st := processDescs crow.concept_id ds st
  pure st

/-! ## Mapping import (`sync_mapping` and helpers, source lines 315-329 and 464-591) -/

/-- Modelled from the spec: `ConceptHelper.get_new_id` is imported from
`omrs.management.commands` (its module is not part of the sources).  Per spec
§4.2 the Identifier Resolver returns the relational identifier registered for
an interchange-time concept identifier during concept materialization, and
fails when no concept with that identifier has been materialized in the
current run. -/
def get_new_id (st : SyncState) (oldId : Nat) : Except Err Nat :=
  match st.newIds.find? (fun p => p.1 == oldId) with
  | some p => .ok p.2
  | none => .error (.unresolvedId oldId)

/-- Find a `ConceptReferenceSource` by name or create it
(source lines 527-532 and 564-569). -/
def findOrCreateSource (n : String) (st : SyncState) :
    ConceptReferenceSourceRow × SyncState :=
  match st.db.reference_sources.find? (fun r => r.name == n) with
  | some r => (r, st)
  | none =>
    let row : ConceptReferenceSourceRow :=
      { concept_source_id := st.db.reference_sources.length + 1, name := n,
        hl7_code := none, creator := 1, retired := false, uuid := genUuid st.gensym,
        date_created := st.gensym + 1 }
    (row, { st with gensym := st.gensym + 2,
                    db := { st.db with reference_sources := st.db.reference_sources ++ [row] } })

/-- Find a `ConceptReferenceTerm` by (code, source) or create it
(source lines 534-539 and 571-576). -/
def findOrCreateTerm (code : String) (srcId : Nat) (st : SyncState) :
    ConceptReferenceTermRow × SyncState :=
  match st.db.reference_terms.find?
      (fun r => r.code == code && r.concept_source_id == srcId) with
  | some r => (r, st)
  | none =>
    let row : ConceptReferenceTermRow :=
      { concept_reference_term_id := st.db.reference_terms.length + 1, code := code,
        concept_source_id := srcId, creator := 1, retired := false,
        uuid := genUuid st.gensym, date_created := st.gensym + 1 }
    (row, { st with gensym := st.gensym + 2,
                    db := { st.db with reference_terms := st.db.reference_terms ++ [row] } })

/-- Find a `ConceptMapType` by name or create it
(source lines 541-546 and 578-583). -/
def findOrCreateMapType (n : String) (st : SyncState) :
    ConceptMapTypeRow × SyncState :=
  match st.db.map_types.find? (fun r => r.name == n) with
  | some r => (r, st)
  | none =>
    let row : ConceptMapTypeRow :=
      { concept_map_type_id := st.db.map_types.length + 1, name := n, creator := 1,
        uuid := genUuid st.gensym, date_created := st.gensym + 1 }
    (row, { st with gensym := st.gensym + 2,
                    db := { st.db with map_types := st.db.map_types ++ [row] } })

/-- Find a `ConceptReferenceMap` by (concept, term, map type) or create it with
the supplied uuid (source lines 548-553 and 585-590). -/
def findOrCreateRefMap (cid termId mtId : Nat) (u : String) (st : SyncState) : SyncState :=
  match st.db.reference_maps.find?
      (fun r => r.concept_id == cid && r.concept_reference_term_id == termId &&
                r.map_type_id == mtId) with
  | some _ => st
  | none =>
    let row : ConceptReferenceMapRow :=
      { concept_map_id := st.db.reference_maps.length + 1,
        concept_reference_term_id := termId, concept_id := cid, uuid := u,
        map_type_id := mtId, creator := 1, date_created := st.gensym }
    { st with gensym := st.gensym + 1,
              db := { st.db with reference_maps := st.db.reference_maps ++ [row] } }

/-- Find a `ConceptAnswer` by (question, answer, uuid) or create it
(source lines 481-488). -/
def findOrCreateAnswer (q a : Nat) (u : String) (st : SyncState) : SyncState :=
  match st.db.concept_answers.find?
      (fun r => r.question_concept_id == q && r.answer_concept_id == a && r.uuid == u) with
  | some _ => st
  | none =>
    let row : ConceptAnswerRow :=
      { concept_answer_id := st.db.concept_answers.length + 1, question_concept_id := q,
        answer_concept_id := a, uuid := u, creator := 1, date_created := st.gensym }
    { st with gensym := st.gensym + 1,
              db := { st.db with concept_answers := st.db.concept_answers ++ [row] } }

/-- Find a `ConceptSet` by (member concept, set owner, uuid) or create it
(source lines 499-504). -/
def findOrCreateSet (cid owner : Nat) (u : String) (st : SyncState) : SyncState :=
  match st.db.concept_sets.find?
      (fun r => r.concept_id == cid && r.concept_set_owner_id == owner && r.uuid == u) with
  | some _ => st
  | none =>
    let row : ConceptSetRow :=
      { concept_set_id := st.db.concept_sets.length + 1, concept_id := cid,
        concept_set_owner_id := owner, uuid := u, creator := 1, date_created := st.gensym }
    { st with gensym := st.gensym + 1,
              db := { st.db with concept_sets := st.db.concept_sets ++ [row] } }

/-- `create_ciel_mapping` (source lines 561-591): look up or create the
reference source, reference term, map type, and reference map. -/
def create_ciel_mapping (cfg : Config) (to_source ciel_id map_type : String)
    (iad_id : Nat) (external_id : String) (st : SyncState) : SyncState :=
  let source_id := cfg.omrsIdOfOclId to_source
  let (src, st) := findOrCreateSource source_id st
  let (term, st) := findOrCreateTerm ciel_id src.concept_source_id st
  let (mt, st) := findOrCreateMapType map_type st
  findOrCreateRefMap iad_id term.concept_reference_term_id mt.concept_map_type_id
    external_id st

/-- `create_internal_mapping` (source lines 464-512).  The `else` branch
(source line 508) executes `cnt_ocl_mapref += 1` on a local variable that is
never assigned, which raises `UnboundLocalError`. -/
def create_internal_mapping (cfg : Config)
    (map_type from_concept_url to_concept_url external_id : String)
    (st : SyncState) : Except Err SyncState := do
  if map_type == "Q-AND-A" then
    let concept_id_s ← urlSeg from_concept_url 6
    let _from_source ← urlSeg from_concept_url 4
    let cid ← pyInt concept_id_s
    let new_concept_id ← get_new_id st cid
    let answer_s ← urlSeg to_concept_url 6
    let to_source ← urlSeg to_concept_url 4
    let aid ← pyInt answer_s
    let new_answer ← get_new_id st aid
    let st := findOrCreateAnswer new_concept_id new_answer external_id st
    pure (create_ciel_mapping cfg to_source concept_id_s "SAME-AS" new_answer
      external_id st)
  else if map_type == "CONCEPT-SET" then
    let concept_set_id_s ← urlSeg from_concept_url 6
    let _from_source ← urlSeg from_concept_url 4
    let csid ← pyInt concept_set_id_s
    let new_concept_set_id ← get_new_id st csid
    let concept_id_s ← urlSeg to_concept_url 6
    let to_source ← urlSeg to_concept_url 4
    let cid ← pyInt concept_id_s
    let new_concept_id ← get_new_id st cid
    let st := findOrCreateSet new_concept_id new_concept_set_id external_id st
    pure (create_ciel_mapping cfg to_source concept_set_id_s "SAME-AS"
      new_concept_set_id external_id st)
  else
    .error (.unboundLocal "cnt_ocl_mapref")

/-- `create_external_mapping` (source lines 514-557). -/
def create_external_mapping (cfg : Config)
    (map_type from_concept_url to_source_url to_concept_code external_id : String)
    (st : SyncState) : Except Err SyncState := do
  let source_name ← urlSeg to_source_url 4
  let source_id := cfg.omrsIdOfOclId source_name
  let concept_id_s ← urlSeg from_concept_url 6
  let cid ← pyInt concept_id_s
  let new_concept_id ← get_new_id st cid
  let (src, st) := findOrCreateSource source_id st
  let (term, st) := findOrCreateTerm to_concept_code src.concept_source_id st
  let (mt, st) := findOrCreateMapType map_type st
  let st := findOrCreateRefMap new_concept_id term.concept_reference_term_id
    mt.concept_map_type_id external_id st
  let from_source ← urlSeg from_concept_url 4
  let u := genUuid st.gensym
  let st := { st with gensym := st.gensym + 1 }
  pure (create_ciel_mapping cfg from_source (toString cid) map_type new_concept_id u st)

/-- The first `if` of the `sync_mapping` loop body (source lines 318-322):
`if 'to_concept_url' in ref_map`, dispatching to `create_internal_mapping`
with the record's fields as keyword arguments. -/
def internalBranch (cfg : Config) (r : MappingRecord) (st : SyncState) :
    Except Err SyncState :=
  if r.to_concept_url.isSome then do
    let st := { st with trace := st.trace ++ [Event.internalMapping r] }
    let mt ← reqField "map_type" r.map_type
    let fu ← reqField "from_concept_url" r.from_concept_url
    let tu ← reqField "to_concept_url" r.to_concept_url
    let eid ← reqField "external_id" r.external_id
    create_internal_mapping cfg mt fu tu eid st
  else pure st

/-- The second `if` of the `sync_mapping` loop body (source lines 323-326):
`if 'to_source_url' in ref_map`, dispatching to `create_external_mapping`. -/
def externalBranch (cfg : Config) (r : MappingRecord) (st : SyncState) :
    Except Err SyncState :=
  if r.to_source_url.isSome then do
    let st := { st with trace := st.trace ++ [Event.externalMapping r] }
    let mt ← reqField "map_type" r.map_type
    let fu ← reqField "from_concept_url" r.from_concept_url
    let tsu ← reqField "to_source_url" r.to_source_url
    let tcc ← reqField "to_concept_code" r.to_concept_code
    let eid ← reqField "external_id" r.external_id
    create_external_mapping cfg mt fu tsu tcc eid st
  else pure st

/-- One iteration of the `for ref_map in mappings` loop of `sync_mapping`
(source lines 317-326): two independent shape checks in sequence, so a record
carrying both keys goes down both branches and a record carrying neither is
skipped without any effect. -/
def sync_mapping_one (cfg : Config) (r : MappingRecord) (st : SyncState) :
    Except Err SyncState := do
  let st ← internalBranch cfg r st
  externalBranch cfg r st

/-- `sync_mapping` (source lines 315-329). -/
def sync_mapping (cfg : Config) (ms : List MappingRecord) (st : SyncState) :
    Except Err SyncState :=
  match ms with
  | [] => .ok st
  | m :: rest => do
    let st ← sync_mapping_one cfg m st
    sync_mapping cfg rest st

/-- The concept loop of `sync_db` (source lines 226-229). -/
def sync_concept_loop (cs : List ConceptRecord) (st : SyncState) :
    Except Err SyncState :=
  match cs with
  | [] => .ok st
  | c :: rest => do
    let st := { st with
      cnt_total_concepts_processed := st.cnt_total_concepts_processed + 1,
      trace := st.trace ++ [Event.conceptProcessed c] }
    let st ← sync_concept c st
    sync_concept_loop rest st

/-- `sync_db` (source lines 208-231, with the default `concept_id = None`):
process every concept record, then every mapping record.  The resolver
entries are per run (each run reassigns every record's `new_id`). -/
def sync_db (cfg : Config) (concepts : List ConceptRecord)
    (mappings : List MappingRecord) (st : SyncState) : Except Err SyncState := do
  let st := { st with newIds := [] }
  let st ← sync_concept_loop concepts st
  sync_mapping cfg mappings st

/-! ## Mapping export (`export_concept_mappings`, source lines 363-410) -/

/-- The joined view of one `ConceptReferenceMap` edge of a concept, as the
export loop reads it through the Django ORM:
`ref_map.map_type.name`, `ref_map.concept_reference_term.{code,name,uuid}`,
`ref_map.concept_reference_term.concept_source.name`, `ref_map.uuid`. -/
structure RefEdge where
  map_type_name : String
  term_code : String
  term_name : Option String
  term_uuid : String
  source_name : String
  refmap_uuid : String
  deriving DecidableEq, Repr

/-- The three counters touched by `export_concept_mappings`. -/
structure ExportCounters where
  internal_created : Nat
  external_created : Nat
  self_ignored : Nat
  deriving DecidableEq, Repr

/-- `/orgs/{org}/sources/{src}/concepts/{code}/` (spec §6 URL convention). -/
def conceptUrl (org src code : String) : String :=
  "/orgs/" ++ org ++ "/sources/" ++ src ++ "/concepts/" ++ code ++ "/"

/-- `/orgs/{org}/sources/{src}/` (spec §6 URL convention). -/
def sourceUrl (org src : String) : String :=
  "/orgs/" ++ org ++ "/sources/" ++ src ++ "/"

/-- Modelled from the spec: `generate_internal_mapping` is called at source
line 381 but defined outside the sources.  Per spec §4.3/§6 an internal
mapping record carries the map type, `from`/`to` concept URLs scoped to the
synchronized dictionary's namespace, and the external identifier. -/
def generate_internal_mapping (cfg : Config) (map_type : String)
    (from_concept_id : Nat) (to_concept_code : String) (external_id : String) :
    MappingRecord :=
  { map_type := some map_type
    from_concept_url := some (conceptUrl cfg.org_id cfg.source_id (toString from_concept_id))
    to_concept_url := some (conceptUrl cfg.org_id cfg.source_id to_concept_code)
    to_source_url := none
    to_concept_code := none
    to_concept_name := none
    external_id := some external_id }

/-- Modelled from the spec: `generate_external_mapping` is called at source
line 396 but defined outside the sources.  Per spec §4.3/§6 an external
mapping record carries the map type, the `from` concept URL, a
`to_source_url` naming the foreign dictionary, the literal foreign concept
code and name, and the external identifier. -/
def generate_external_mapping (cfg : Config) (map_type : String)
    (from_concept_id : Nat) (to_org_id to_source_id to_concept_code : String)
    (to_concept_name : Option String) (external_id : String) : MappingRecord :=
  { map_type := some map_type
    from_concept_url := some (conceptUrl cfg.org_id cfg.source_id (toString from_concept_id))
    to_concept_url := none
    to_source_url := some (sourceUrl to_org_id to_source_id)
    to_concept_code := some to_concept_code
    to_concept_name := to_concept_name
    external_id := some external_id }

/-- `export_concept_mappings` (source lines 363-410) over the joined edge
view of `concept.conceptreferencemap_set.all()`: classify each edge as a
self-mapping (skipped and counted), an internal mapping, or an external
mapping, and collect the generated records in edge order. -/
def export_concept_mappings (cfg : Config) (concept_id : Nat)
    (edges : List RefEdge) : List MappingRecord × ExportCounters :=
  match edges with
  | [] => ([], ⟨0, 0, 0⟩)
  | e :: rest =>
    let (recs, cnt) := export_concept_mappings cfg concept_id rest
    if e.source_name == cfg.org_id then
      if toString concept_id == e.term_code then
        (recs, { cnt with self_ignored := cnt.self_ignored + 1 })
      else
        (generate_internal_mapping cfg e.map_type_name concept_id e.term_code
            e.term_uuid :: recs,
          { cnt with internal_created := cnt.internal_created + 1 })
    else
      let to_source_id := cfg.oclIdOfOmrsId e.source_name
      let to_org_id := cfg.ownerOfOclId to_source_id
      (generate_external_mapping cfg e.map_type_name concept_id to_org_id
          to_source_id e.term_code e.term_name e.refmap_uuid :: recs,
        { cnt with external_created := cnt.external_created + 1 })

/-- Spec-side per-edge classifier, written from the spec's words (§4.3): a
self-mapping yields no record, another own-dictionary edge yields the
internal-shaped record, a foreign edge the external-shaped record.  Used only
to compare against `export_concept_mappings`. -/
def edgeRecord (cfg : Config) (concept_id : Nat) (e : RefEdge) :
    Option MappingRecord :=
  if e.source_name == cfg.org_id then
    if toString concept_id == e.term_code then none
    else some (generate_internal_mapping cfg e.map_type_name concept_id
      e.term_code e.term_uuid)
  else
    let to_source_id := cfg.oclIdOfOmrsId e.source_name
    let to_org_id := cfg.ownerOfOclId to_source_id
    some (generate_external_mapping cfg e.map_type_name concept_id to_org_id
      to_source_id e.term_code e.term_name e.refmap_uuid)

/-- `true` when `e` is a self-mapping edge of concept `concept_id`
(own-dictionary source and the term code equals the concept's identifier). -/
def isSelfEdge (cfg : Config) (concept_id : Nat) (e : RefEdge) : Bool :=
  e.source_name == cfg.org_id && toString concept_id == e.term_code

/-- A record is internal-shaped: it carries a `to_concept_url` and no
`to_source_url`. -/
def internalShaped (r : MappingRecord) : Prop :=
  r.to_concept_url.isSome ∧ r.to_source_url = none

/-- A record is external-shaped: it carries a `to_source_url` and no
`to_concept_url`. -/
def externalShaped (r : MappingRecord) : Prop :=
  r.to_source_url.isSome ∧ r.to_concept_url = none

/-! ## Concrete fixtures used by witnesses and counterexamples -/

/-- A concrete configuration: the dictionary being synchronized is
`ORG`/`SRC`, and the source directory is the identity lookup. -/
def cfg0 : Config :=
  { org_id := "ORG", source_id := "SRC",
    omrsIdOfOclId := fun s => s, oclIdOfOmrsId := fun s => s,
    ownerOfOclId := fun _ => "ORG" }

/-- The empty relational store. -/
def emptyDB : DB := {}

/-- The initial run state over an empty store. -/
def init0 : SyncState := { db := emptyDB }

/-- Extract the final state of a successful run, with a fallback default. -/
def okState (e : Except Err SyncState) (d : SyncState) : SyncState :=
  match e with
  | .ok s => s
  | .error _ => d

/-- `true` when the run succeeded. -/
def isOk (e : Except Err SyncState) : Bool :=
  match e with
  | .ok _ => true
  | .error _ => false

/-- Decidable equality of run results, for concrete evaluation. -/
instance instDecEqExcept : DecidableEq (Except Err SyncState) := fun a b =>
  match a, b with
  | .ok x, .ok y =>
    if h : x = y then isTrue (by rw [h]) else isFalse (by simp [h])
  | .error x, .error y =>
    if h : x = y then isTrue (by rw [h]) else isFalse (by simp [h])
  | .ok _, .error _ => isFalse (by simp)
  | .error _, .ok _ => isFalse (by simp)

/-! ### Concrete records and states used by witnesses and counterexamples -/

/-- The spec §8 end-to-end concept record: id 100, class Diagnosis, datatype
N/A, one name "Fever". -/
def c100 : ConceptRecord :=
  { id := some 100, concept_class := some "Diagnosis", datatype := some "N/A",
    external_id := some "uuid-A", retired := some false,
    names := some [{ name := "Fever", name_type := "FULLY_SPECIFIED", locale := "en",
                     locale_preferred := true, external_id := "uuid-B" }],
    descriptions := some [], extras := some {} }

/-- The spec §8 SAME-AS mapping whose from and to URLs both reference
concept 100. -/
def m100 : MappingRecord :=
  { map_type := some "SAME-AS",
    from_concept_url := some "/orgs/ORG/sources/SRC/concepts/100/",
    to_concept_url := some "/orgs/ORG/sources/SRC/concepts/100/",
    external_id := some "uuid-C" }

/-- A mapping record with neither a `to_concept_url` nor a `to_source_url`. -/
def mShapeless : MappingRecord :=
  { map_type := some "SAME-AS", external_id := some "uuid-N" }

/-- Another record with neither target key (C7's malformed-mapping example). -/
def mShapeless7 : MappingRecord :=
  { map_type := some "NARROWER-THAN",
    from_concept_url := some "/orgs/ORG/sources/SRC/concepts/3/" }

/-- A concept record missing the required `concept_class` key. -/
def cNoClass : ConceptRecord :=
  { id := some 7, datatype := some "N/A", external_id := some "uuid-D",
    retired := some false, names := some [], descriptions := some [],
    extras := some {} }

/-- A numeric concept record whose extras supply only `units` and `hi_normal`. -/
def cNum : ConceptRecord :=
  { id := some 9, concept_class := some "Test", datatype := some "Numeric",
    external_id := some "uuid-E", retired := some false,
    names := some [{ name := "Weight", name_type := "FULLY_SPECIFIED", locale := "en",
                     locale_preferred := true, external_id := "uuid-F" }],
    descriptions := some [],
    extras := some { units := some "kg", hi_normal := some 120 } }

/-- A concept record with original identifier 1. -/
def c1r : ConceptRecord :=
  { id := some 1, concept_class := some "Question", datatype := some "Coded",
    external_id := some "u1", retired := some false,
    names := some [{ name := "Q1", name_type := "FULLY_SPECIFIED", locale := "en",
                     locale_preferred := true, external_id := "nu1" }],
    descriptions := some [{ description := "d1", locale := "en", external_id := "du1" }],
    extras := some {} }

/-- A concept record with original identifier 2. -/
def c2r : ConceptRecord :=
  { id := some 2, concept_class := some "Misc", datatype := some "N/A",
    external_id := some "u2", retired := some false,
    names := some [{ name := "A1", name_type := "FULLY_SPECIFIED", locale := "en",
                     locale_preferred := true, external_id := "nu2" }],
    descriptions := some [], extras := some {} }

/-- A Q-AND-A mapping record from concept 1 to concept 2. -/
def mqa : MappingRecord :=
  { map_type := some "Q-AND-A",
    from_concept_url := some "/orgs/ORG/sources/SRC/concepts/1/",
    to_concept_url := some "/orgs/ORG/sources/SRC/concepts/2/",
    external_id := some "uuid-QA" }

/-- A CONCEPT-SET mapping record from concept 1 to concept 2. -/
def mcs : MappingRecord :=
  { map_type := some "CONCEPT-SET",
    from_concept_url := some "/orgs/ORG/sources/SRC/concepts/1/",
    to_concept_url := some "/orgs/ORG/sources/SRC/concepts/2/",
    external_id := some "uuid-CS" }

/-- An external mapping record from concept 1 to a foreign source. -/
def mext : MappingRecord :=
  { map_type := some "NARROWER-THAN",
    from_concept_url := some "/orgs/ORG/sources/SRC/concepts/1/",
    to_source_url := some "/orgs/WHO/sources/ICD/",
    to_concept_code := some "X99",
    external_id := some "uuid-EX" }

/-- A mapping record carrying both a `to_concept_url` and a `to_source_url`. -/
def mBoth : MappingRecord :=
  { map_type := some "Q-AND-A",
    from_concept_url := some "/orgs/ORG/sources/SRC/concepts/1/",
    to_concept_url := some "/orgs/ORG/sources/SRC/concepts/2/",
    to_source_url := some "/orgs/WHO/sources/ICD/",
    to_concept_code := some "X99",
    external_id := some "uuid-BO" }

/-- A run state over an empty store whose resolver maps 1 to 1 and 2 to 2. -/
def stResolved : SyncState := { db := emptyDB, newIds := [(1, 1), (2, 2)] }

/-- A placeholder relational concept row for pre-populated stores. -/
def dummyConceptRow : ConceptRow :=
  { concept_id := 0, class_id := 0, datatype_id := 0, is_set := false, uuid := "pre",
    retired := false, creator := 1, date_created := 0, description := none }

/-- A store holding three pre-existing concepts, so that newly materialized
concepts receive the relational identifiers 4 and 5. -/
def init3 : SyncState :=
  { db := { concepts := [dummyConceptRow, dummyConceptRow, dummyConceptRow] } }

/-- Export edge of concept 7 pointing at its own code in the own dictionary. -/
def eSelf : RefEdge :=
  { map_type_name := "SAME-AS", term_code := "7", term_name := none,
    term_uuid := "tu1", source_name := "ORG", refmap_uuid := "mu1" }

/-- Export edge of concept 7 pointing at another own-dictionary concept. -/
def eOwn : RefEdge :=
  { map_type_name := "SAME-AS", term_code := "9", term_name := none,
    term_uuid := "tu2", source_name := "ORG", refmap_uuid := "mu2" }

/-- Export edge of concept 7 pointing at a foreign source. -/
def eForeign : RefEdge :=
  { map_type_name := "NARROWER-THAN", term_code := "X1", term_name := some "x",
    term_uuid := "tu3", source_name := "IHTSDO", refmap_uuid := "mu3" }

/-! ## Proof infrastructure: list extension and `find?` stability -/

/-- `l'` extends `l` by appending rows at the end (append-only growth). -/
def ListExt {ρ : Type} (l l' : List ρ) : Prop := ∃ e, l' = l ++ e

/-- Tablewise append-only extension of the whole store. -/
structure DB.Ext (d d' : DB) : Prop where
  classes : ListExt d.concept_classes d'.concept_classes
  dts : ListExt d.datatypes d'.datatypes
  cons : ListExt d.concepts d'.concepts
  names : ListExt d.concept_names d'.concept_names
  descs : ListExt d.concept_descriptions d'.concept_descriptions
  nums : ListExt d.concept_numerics d'.concept_numerics
  answers : ListExt d.concept_answers d'.concept_answers
  sets : ListExt d.concept_sets d'.concept_sets
  sources : ListExt d.reference_sources d'.reference_sources
  terms : ListExt d.reference_terms d'.reference_terms
  mtypes : ListExt d.map_types d'.map_types
  rmaps : ListExt d.reference_maps d'.reference_maps

/-- Run-to-run invariant pieces preserved by an operation: append-only store
growth, unchanged resolver entries, unchanged trace. -/
structure Step (st st' : SyncState) : Prop where
  ext : DB.Ext st.db st'.db
  ids : st'.newIds = st.newIds
  tr : st'.trace = st.trace

/-- Relation between the `cconcept` loop variable of the original run and of
the replay: both absent, or both present with the same relational identifier,
the identifier being realized by some row of the final store `D`. -/
def OptRel (D : DB) : Option ConceptRow → Option ConceptRow → Prop
  | some a, some b =>
      a.concept_id = b.concept_id ∧ ∃ y ∈ D.concepts, y.concept_id = a.concept_id
  | none, none => True
  | _, _ => False

theorem ListExt.refl {ρ : Type} (l : List ρ) : ListExt l l :=
  ⟨[], (List.append_nil l).symm⟩

theorem ListExt.trans {ρ : Type} {a b c : List ρ} (h₁ : ListExt a b)
    (h₂ : ListExt b c) : ListExt a c := by
  obtain ⟨e₁, rfl⟩ := h₁
  obtain ⟨e₂, rfl⟩ := h₂
  exact ⟨e₁ ++ e₂, List.append_assoc a e₁ e₂⟩

theorem ListExt.snoc {ρ : Type} (l : List ρ) (x : ρ) : ListExt l (l ++ [x]) :=
  ⟨[x], rfl⟩

/-- A `find?` hit survives appending rows. -/
theorem find_mono {ρ : Type} {l : List ρ} (e : List ρ) {p : ρ → Bool} {x : ρ}
    (h : l.find? p = some x) : (l ++ e).find? p = some x := by
  rw [List.find?_append, h]; rfl

/-- After a miss followed by inserting a matching row, `find?` over any
further extension returns exactly the inserted row. -/
theorem find_push {ρ : Type} {l : List ρ} (e : List ρ) {p : ρ → Bool} {x : ρ}
    (h : l.find? p = none) (hx : p x = true) : ((l ++ [x]) ++ e).find? p = some x := by
  rw [List.append_assoc, List.find?_append, h, List.singleton_append,
    List.find?_cons_of_pos _ hx]
  rfl

/-- A list containing a matching element has a `find?` hit, and the hit
satisfies the predicate. -/
theorem find_exists {ρ : Type} (p : ρ → Bool) {L : List ρ} {x : ρ}
    (hx : x ∈ L) (hpx : p x = true) : ∃ y, L.find? p = some y ∧ p y = true := by
  induction L with
  | nil => cases hx
  | cons a t ih =>
    by_cases ha : p a = true
    · exact ⟨a, List.find?_cons_of_pos _ ha, ha⟩
    · have ha' : p a = false := by simpa using ha
      cases hx with
      | head => exact absurd hpx ha
      | tail _ ht =>
        obtain ⟨y, hy, hpy⟩ := ih ht
        exact ⟨y, by rw [List.find?_cons_of_neg _ (by simp [ha']), hy], hpy⟩

/-- Inversion for a successful `Except` bind. -/
theorem bind_ok {α β : Type} {x : Except Err α} {f : α → Except Err β} {b : β}
    (h : x >>= f = .ok b) : ∃ a, x = .ok a ∧ f a = .ok b := by
  cases x with
  | ok a => exact ⟨a, rfl, h⟩
  | error e => exact absurd h (by simp [Bind.bind, Except.bind])

theorem reqField_ok {α : Type} {k : String} {v : Option α} {a : α}
    (h : reqField k v = .ok a) : v = some a := by
  cases v with
  | some b => cases h; rfl
  | none => exact absurd h (by simp [reqField])

theorem DB.Ext.rfl (d : DB) : DB.Ext d d :=
  ⟨ListExt.refl _, ListExt.refl _, ListExt.refl _, ListExt.refl _, ListExt.refl _,
   ListExt.refl _, ListExt.refl _, ListExt.refl _, ListExt.refl _, ListExt.refl _,
   ListExt.refl _, ListExt.refl _⟩

theorem DB.Ext.comp {a b c : DB} (h₁ : DB.Ext a b) (h₂ : DB.Ext b c) : DB.Ext a c :=
  ⟨h₁.classes.trans h₂.classes, h₁.dts.trans h₂.dts, h₁.cons.trans h₂.cons,
   h₁.names.trans h₂.names, h₁.descs.trans h₂.descs, h₁.nums.trans h₂.nums,
   h₁.answers.trans h₂.answers, h₁.sets.trans h₂.sets, h₁.sources.trans h₂.sources,
   h₁.terms.trans h₂.terms, h₁.mtypes.trans h₂.mtypes, h₁.rmaps.trans h₂.rmaps⟩

/-! ## Frame lemmas: every operation only appends rows -/

theorem ext_insertClass (n : String) (r : Bool) (st : SyncState) :
    DB.Ext st.db (insertClass n r st).2.db :=
  ⟨⟨_, rfl⟩, ListExt.refl _, ListExt.refl _, ListExt.refl _, ListExt.refl _,
   ListExt.refl _, ListExt.refl _, ListExt.refl _, ListExt.refl _, ListExt.refl _,
   ListExt.refl _, ListExt.refl _⟩

theorem ext_insertDatatype (n : String) (st : SyncState) :
    DB.Ext st.db (insertDatatype n st).2.db :=
  ⟨ListExt.refl _, ⟨_, rfl⟩, ListExt.refl _, ListExt.refl _, ListExt.refl _,
   ListExt.refl _, ListExt.refl _, ListExt.refl _, ListExt.refl _, ListExt.refl _,
   ListExt.refl _, ListExt.refl _⟩

theorem ext_insertConcept (cl : ConceptClassRow) (dt : ConceptDatatypeRow)
    (isSet : Bool) (extId : String) (re : Bool) (de : Option String) (st : SyncState) :
    DB.Ext st.db (insertConcept cl dt isSet extId re de st).2.db :=
  ⟨ListExt.refl _, ListExt.refl _, ⟨_, rfl⟩, ListExt.refl _, ListExt.refl _,
   ListExt.refl _, ListExt.refl _, ListExt.refl _, ListExt.refl _, ListExt.refl _,
   ListExt.refl _, ListExt.refl _⟩

theorem ext_insertConceptName (cid : Nat) (n : NameRec) (st : SyncState) :
    DB.Ext st.db (insertConceptName cid n st).2.db :=
  ⟨ListExt.refl _, ListExt.refl _, ListExt.refl _, ⟨_, rfl⟩, ListExt.refl _,
   ListExt.refl _, ListExt.refl _, ListExt.refl _, ListExt.refl _, ListExt.refl _,
   ListExt.refl _, ListExt.refl _⟩

theorem ext_insertConceptDescription (cid : Nat) (d : DescRec) (st : SyncState) :
    DB.Ext st.db (insertConceptDescription cid d st).2.db :=
  ⟨ListExt.refl _, ListExt.refl _, ListExt.refl _, ListExt.refl _, ⟨_, rfl⟩,
   ListExt.refl _, ListExt.refl _, ListExt.refl _, ListExt.refl _, ListExt.refl _,
   ListExt.refl _, ListExt.refl _⟩

theorem ext_findOrCreateSource (n : String) (st : SyncState) :
    DB.Ext st.db (findOrCreateSource n st).2.db := by
  unfold findOrCreateSource
  cases h : st.db.reference_sources.find? (fun r => r.name == n) <;> simp only [h]
  · exact ⟨ListExt.refl _, ListExt.refl _, ListExt.refl _, ListExt.refl _,
      ListExt.refl _, ListExt.refl _, ListExt.refl _, ListExt.refl _, ⟨_, rfl⟩,
      ListExt.refl _, ListExt.refl _, ListExt.refl _⟩
  · exact DB.Ext.rfl _

theorem ext_findOrCreateTerm (code : String) (srcId : Nat) (st : SyncState) :
    DB.Ext st.db (findOrCreateTerm code srcId st).2.db := by
  unfold findOrCreateTerm
  cases h : st.db.reference_terms.find?
      (fun r => r.code == code && r.concept_source_id == srcId) <;> simp only [h]
  · exact ⟨ListExt.refl _, ListExt.refl _, ListExt.refl _, ListExt.refl _,
      ListExt.refl _, ListExt.refl _, ListExt.refl _, ListExt.refl _, ListExt.refl _,
      ⟨_, rfl⟩, ListExt.refl _, ListExt.refl _⟩
  · exact DB.Ext.rfl _

theorem ext_findOrCreateMapType (n : String) (st : SyncState) :
    DB.Ext st.db (findOrCreateMapType n st).2.db := by
  unfold findOrCreateMapType
  cases h : st.db.map_types.find? (fun r => r.name == n) <;> simp only [h]
  · exact ⟨ListExt.refl _, ListExt.refl _, ListExt.refl _, ListExt.refl _,
      ListExt.refl _, ListExt.refl _, ListExt.refl _, ListExt.refl _, ListExt.refl _,
      ListExt.refl _, ⟨_, rfl⟩, ListExt.refl _⟩
  · exact DB.Ext.rfl _

theorem ext_findOrCreateRefMap (cid termId mtId : Nat) (u : String) (st : SyncState) :
    DB.Ext st.db (findOrCreateRefMap cid termId mtId u st).db := by
  unfold findOrCreateRefMap
  cases h : st.db.reference_maps.find?
      (fun r => r.concept_id == cid && r.concept_reference_term_id == termId &&
        r.map_type_id == mtId) <;> simp only [h]
  · exact ⟨ListExt.refl _, ListExt.refl _, ListExt.refl _, ListExt.refl _,
      ListExt.refl _, ListExt.refl _, ListExt.refl _, ListExt.refl _, ListExt.refl _,
      ListExt.refl _, ListExt.refl _, ⟨_, rfl⟩⟩
  · exact DB.Ext.rfl _

theorem ext_findOrCreateAnswer (q a : Nat) (u : String) (st : SyncState) :
    DB.Ext st.db (findOrCreateAnswer q a u st).db := by
  unfold findOrCreateAnswer
  cases h : st.db.concept_answers.find?
      (fun r => r.question_concept_id == q && r.answer_concept_id == a &&
        r.uuid == u) <;> simp only [h]
  · exact ⟨ListExt.refl _, ListExt.refl _, ListExt.refl _, ListExt.refl _,
      ListExt.refl _, ListExt.refl _, ⟨_, rfl⟩, ListExt.refl _, ListExt.refl _,
      ListExt.refl _, ListExt.refl _, ListExt.refl _⟩
  · exact DB.Ext.rfl _

theorem ext_findOrCreateSet (cid owner : Nat) (u : String) (st : SyncState) :
    DB.Ext st.db (findOrCreateSet cid owner u st).db := by
  unfold findOrCreateSet
  cases h : st.db.concept_sets.find?
      (fun r => r.concept_id == cid && r.concept_set_owner_id == owner &&
        r.uuid == u) <;> simp only [h]
  · exact ⟨ListExt.refl _, ListExt.refl _, ListExt.refl _, ListExt.refl _,
      ListExt.refl _, ListExt.refl _, ListExt.refl _, ⟨_, rfl⟩, ListExt.refl _,
      ListExt.refl _, ListExt.refl _, ListExt.refl _⟩
  · exact DB.Ext.rfl _

theorem ext_create_ciel_mapping (cfg : Config) (ts ci mt : String) (iad : Nat)
    (eid : String) (st : SyncState) :
    DB.Ext st.db (create_ciel_mapping cfg ts ci mt iad eid st).db := by
  unfold create_ciel_mapping
  exact (((ext_findOrCreateSource _ _).comp (ext_findOrCreateTerm _ _ _)).comp
    (ext_findOrCreateMapType _ _)).comp (ext_findOrCreateRefMap _ _ _ _ _)

/-! ## Inversion and bookkeeping lemmas for the import operations -/

theorem getConceptClass_inv {c : ConceptRecord} {st : SyncState}
    {r : ConceptClassRow} {st' : SyncState}
    (h : getConceptClass c st = .ok (r, st')) :
    ∃ n, c.concept_class = some n ∧
      ((lookupClass n st.db = some r ∧ st' = st) ∨
       (lookupClass n st.db = none ∧ ∃ ret, c.retired = some ret ∧
         (r, st') = insertClass n ret st)) := by
  unfold getConceptClass at h
  obtain ⟨n, hn, h⟩ := bind_ok h
  refine ⟨n, reqField_ok hn, ?_⟩
  cases hl : lookupClass n st.db with
  | some q =>
    rw [hl] at h
    simp only [Except.ok.injEq, Prod.mk.injEq] at h
    obtain ⟨rfl, rfl⟩ := h
    exact Or.inl ⟨rfl, rfl⟩
  | none =>
    rw [hl] at h
    obtain ⟨ret, hret, h⟩ := bind_ok h
    simp only [Except.ok.injEq] at h
    exact Or.inr ⟨rfl, ret, reqField_ok hret, h.symm⟩

theorem getConceptDatatype_inv {c : ConceptRecord} {st : SyncState}
    {r : ConceptDatatypeRow} {st' : SyncState}
    (h : getConceptDatatype c st = .ok (r, st')) :
    ∃ n, c.datatype = some n ∧
      ((lookupDatatype n st.db = some r ∧ st' = st) ∨
       (lookupDatatype n st.db = none ∧ (r, st') = insertDatatype n st)) := by
  unfold getConceptDatatype at h
  obtain ⟨n, hn, h⟩ := bind_ok h
  refine ⟨n, reqField_ok hn, ?_⟩
  cases hl : lookupDatatype n st.db with
  | some q =>
    rw [hl] at h
    simp only [Except.ok.injEq, Prod.mk.injEq] at h
    obtain ⟨rfl, rfl⟩ := h
    exact Or.inl ⟨rfl, rfl⟩
  | none =>
    rw [hl] at h
    simp only [Except.ok.injEq] at h
    exact Or.inr ⟨rfl, h.symm⟩

theorem conceptById_inv {cid : Nat} {db : DB} {r : ConceptRow}
    (h : conceptById cid db = .ok r) :
    db.concepts.find? (fun x => x.concept_id == cid) = some r := by
  unfold conceptById at h
  cases hf : db.concepts.find? (fun x => x.concept_id == cid) with
  | some q => rw [hf] at h; cases h; rfl
  | none => rw [hf] at h; exact absurd h (by simp)

theorem Step.srefl (st : SyncState) : Step st st := ⟨DB.Ext.rfl _, rfl, rfl⟩

theorem Step.scomp {a b c : SyncState} (h₁ : Step a b) (h₂ : Step b c) : Step a c :=
  ⟨h₁.ext.comp h₂.ext, h₂.ids.trans h₁.ids, h₂.tr.trans h₁.tr⟩

theorem step_getConceptClass {c : ConceptRecord} {st : SyncState}
    {r : ConceptClassRow} {st' : SyncState}
    (h : getConceptClass c st = .ok (r, st')) : Step st st' := by
  obtain ⟨n, _, hcase⟩ := getConceptClass_inv h
  rcases hcase with ⟨_, rfl⟩ | ⟨_, ret, _, hpair⟩
  · exact Step.srefl _
  · have hst : st' = (insertClass n ret st).2 := congrArg Prod.snd hpair
    rw [hst]
    exact ⟨ext_insertClass n ret st, rfl, rfl⟩

theorem step_getConceptDatatype {c : ConceptRecord} {st : SyncState}
    {r : ConceptDatatypeRow} {st' : SyncState}
    (h : getConceptDatatype c st = .ok (r, st')) : Step st st' := by
  obtain ⟨n, _, hcase⟩ := getConceptDatatype_inv h
  rcases hcase with ⟨_, rfl⟩ | ⟨_, hpair⟩
  · exact Step.srefl _
  · have hst : st' = (insertDatatype n st).2 := congrArg Prod.snd hpair
    rw [hst]
    exact ⟨ext_insertDatatype n st, rfl, rfl⟩

theorem step_insertConceptName (cid : Nat) (n : NameRec) (st : SyncState) :
    Step st (insertConceptName cid n st).2 :=
  ⟨ext_insertConceptName cid n st, rfl, rfl⟩

theorem step_processNames {c : ConceptRecord} {cl : ConceptClassRow}
    {dt : ConceptDatatypeRow} {isSet : Bool} {ns : List NameRec} :
    ∀ {cc : Option ConceptRow} {st : SyncState} {ccOut : Option ConceptRow}
      {st' : SyncState},
      processNames c cl dt isSet ns cc st = .ok (ccOut, st') → Step st st' := by
  induction ns with
  | nil =>
    intro cc st ccOut st' h
    unfold processNames at h
    simp only [Except.ok.injEq, Prod.mk.injEq] at h
    obtain ⟨rfl, rfl⟩ := h
    exact Step.srefl _
  | cons n rest ih =>
    intro cc st ccOut st' h
    unfold processNames at h
    cases hl : lookupConceptName n st.db with
    | some nr =>
      rw [hl] at h
      obtain ⟨found, _, h⟩ := bind_ok h
      exact ih h
    | none =>
      rw [hl] at h
      cases cc with
      | some r =>
        obtain ⟨p, hp, h⟩ := bind_ok h
        cases hp
        exact Step.scomp (step_insertConceptName r.concept_id n st) (ih h)
      | none =>
        obtain ⟨extId, _, h⟩ := bind_ok h
        obtain ⟨ret, _, h⟩ := bind_ok h
        obtain ⟨p, hp, h⟩ := bind_ok h
        cases hp
        refine Step.scomp ⟨ext_insertConcept cl dt isSet extId ret c.description st, rfl, rfl⟩
          (Step.scomp (step_insertConceptName
            (insertConcept cl dt isSet extId ret c.description st).1.concept_id n
            (insertConcept cl dt isSet extId ret c.description st).2) (ih h))

theorem step_processDescs (cid : Nat) : ∀ (ds : List DescRec) (st : SyncState),
    Step st (processDescs cid ds st) := by
  intro ds
  induction ds with
  | nil => intro st; exact Step.srefl _
  | cons d rest ih =>
    intro st
    unfold processDescs
    cases h : st.db.concept_descriptions.find?
        (fun r => r.concept_id == cid && r.description == d.description) with
    | some q =>
      simp only [h]
      exact ih st
    | none =>
      simp only [h]
      exact Step.scomp ⟨ext_insertConceptDescription cid d st, rfl, rfl⟩
        (ih (insertConceptDescription cid d st).2)

/-- What one `sync_concept` call does to the store, the trace and the
resolver: append-only growth, no trace change, and exactly one resolver entry
appended when the record carries an `id`. -/
theorem sync_concept_facts {c : ConceptRecord} {st st' : SyncState}
    (h : sync_concept c st = .ok st') :
    DB.Ext st.db st'.db ∧ st'.trace = st.trace ∧
      ((∃ i nid, c.id = some i ∧ st'.newIds = st.newIds ++ [(i, nid)]) ∨
       (c.id = none ∧ st'.newIds = st.newIds)) := by
  unfold sync_concept at h
  obtain ⟨p₁, h₁, h⟩ := bind_ok h
  obtain ⟨cl, st₁⟩ := p₁
  obtain ⟨p₂, h₂, h⟩ := bind_ok h
  obtain ⟨dt, st₂⟩ := p₂
  obtain ⟨ns, _, h⟩ := bind_ok h
  obtain ⟨ex, _, h⟩ := bind_ok h
  obtain ⟨p₃, h₃, h⟩ := bind_ok h
  obtain ⟨ccOpt, st₃⟩ := p₃
  have s₁ : Step { st with cnt_concepts_created := st.cnt_concepts_created + 1 } st₁ :=
    step_getConceptClass h₁
  have s₂ : Step st₁ st₂ := step_getConceptDatatype h₂
  have s₃ : Step st₂ st₃ := step_processNames h₃
  have s₀ : Step st { st with cnt_concepts_created := st.cnt_concepts_created + 1 } :=
    ⟨DB.Ext.rfl _, rfl, rfl⟩
  have sAll : Step st st₃ := s₀.scomp ((s₁.scomp s₂).scomp s₃)
  cases ccOpt with
  | none => exact absurd h (by simp [Bind.bind, Except.bind])
  | some crow =>
    obtain ⟨y, hy, h⟩ := bind_ok h
    cases hy
    cases hid : c.id with
    | some i =>
      rw [hid] at h
      obtain ⟨ds, _, h⟩ := bind_ok h
      simp only [pure, Except.pure, Except.ok.injEq] at h
      have s₄ : Step { st₃ with newIds := st₃.newIds ++ [(i, crow.concept_id)] }
          (processDescs crow.concept_id ds
            { st₃ with newIds := st₃.newIds ++ [(i, crow.concept_id)] }) :=
        step_processDescs crow.concept_id ds _
      subst h
      refine ⟨sAll.ext.comp s₄.ext, s₄.tr.trans sAll.tr,
        Or.inl ⟨i, crow.concept_id, rfl, ?_⟩⟩
      rw [s₄.ids]
      simp only [sAll.ids]
    | none =>
      rw [hid] at h
      obtain ⟨ds, _, h⟩ := bind_ok h
      simp only [pure, Except.pure, Except.ok.injEq] at h
      have s₄ : Step st₃ (processDescs crow.concept_id ds st₃) :=
        step_processDescs crow.concept_id ds st₃
      subst h
      exact ⟨sAll.ext.comp s₄.ext, s₄.tr.trans sAll.tr,
        Or.inr ⟨rfl, s₄.ids.trans sAll.ids⟩⟩

theorem step_findOrCreateSource (n : String) (st : SyncState) :
    Step st (findOrCreateSource n st).2 := by
  refine ⟨ext_findOrCreateSource n st, ?_, ?_⟩ <;>
  · unfold findOrCreateSource
    cases h : st.db.reference_sources.find? (fun r => r.name == n) <;> simp only [h]

theorem step_findOrCreateTerm (code : String) (srcId : Nat) (st : SyncState) :
    Step st (findOrCreateTerm code srcId st).2 := by
  refine ⟨ext_findOrCreateTerm code srcId st, ?_, ?_⟩ <;>
  · unfold findOrCreateTerm
    cases h : st.db.reference_terms.find?
        (fun r => r.code == code && r.concept_source_id == srcId) <;> simp only [h]

theorem step_findOrCreateMapType (n : String) (st : SyncState) :
    Step st (findOrCreateMapType n st).2 := by
  refine ⟨ext_findOrCreateMapType n st, ?_, ?_⟩ <;>
  · unfold findOrCreateMapType
    cases h : st.db.map_types.find? (fun r => r.name == n) <;> simp only [h]

theorem step_findOrCreateRefMap (cid termId mtId : Nat) (u : String) (st : SyncState) :
    Step st (findOrCreateRefMap cid termId mtId u st) := by
  refine ⟨ext_findOrCreateRefMap cid termId mtId u st, ?_, ?_⟩ <;>
  · unfold findOrCreateRefMap
    cases h : st.db.reference_maps.find?
        (fun r => r.concept_id == cid && r.concept_reference_term_id == termId &&
          r.map_type_id == mtId) <;> simp only [h]

theorem step_findOrCreateAnswer (q a : Nat) (u : String) (st : SyncState) :
    Step st (findOrCreateAnswer q a u st) := by
  refine ⟨ext_findOrCreateAnswer q a u st, ?_, ?_⟩ <;>
  · unfold findOrCreateAnswer
    cases h : st.db.concept_answers.find?
        (fun r => r.question_concept_id == q && r.answer_concept_id == a &&
          r.uuid == u) <;> simp only [h]

theorem step_findOrCreateSet (cid owner : Nat) (u : String) (st : SyncState) :
    Step st (findOrCreateSet cid owner u st) := by
  refine ⟨ext_findOrCreateSet cid owner u st, ?_, ?_⟩ <;>
  · unfold findOrCreateSet
    cases h : st.db.concept_sets.find?
        (fun r => r.concept_id == cid && r.concept_set_owner_id == owner &&
          r.uuid == u) <;> simp only [h]

theorem step_bumpGensym (st : SyncState) : Step st { st with gensym := st.gensym + 1 } :=
  ⟨DB.Ext.rfl _, rfl, rfl⟩

theorem step_create_ciel_mapping (cfg : Config) (ts ci mt : String) (iad : Nat)
    (eid : String) (st : SyncState) :
    Step st (create_ciel_mapping cfg ts ci mt iad eid st) := by
  unfold create_ciel_mapping
  exact ((((step_findOrCreateSource _ _).scomp (step_findOrCreateTerm _ _ _)).scomp
    (step_findOrCreateMapType _ _)).scomp (step_findOrCreateRefMap _ _ _ _ _))

theorem step_create_internal_mapping {cfg : Config} {mt fu tu eid : String}
    {st st' : SyncState}
    (h : create_internal_mapping cfg mt fu tu eid st = .ok st') : Step st st' := by
  unfold create_internal_mapping at h
  split at h
  · obtain ⟨cidS, _, h⟩ := bind_ok h
    obtain ⟨fs, _, h⟩ := bind_ok h
    obtain ⟨cid, _, h⟩ := bind_ok h
    obtain ⟨ncid, _, h⟩ := bind_ok h
    obtain ⟨aS, _, h⟩ := bind_ok h
    obtain ⟨ts, _, h⟩ := bind_ok h
    obtain ⟨aid, _, h⟩ := bind_ok h
    obtain ⟨naid, _, h⟩ := bind_ok h
    simp only [pure, Except.pure, Except.ok.injEq] at h
    subst h
    exact (step_findOrCreateAnswer ncid naid eid st).scomp
      (step_create_ciel_mapping cfg ts cidS "SAME-AS" naid eid _)
  · split at h
    · obtain ⟨csS, _, h⟩ := bind_ok h
      obtain ⟨fs, _, h⟩ := bind_ok h
      obtain ⟨csid, _, h⟩ := bind_ok h
      obtain ⟨ncsid, _, h⟩ := bind_ok h
      obtain ⟨cidS, _, h⟩ := bind_ok h
      obtain ⟨ts, _, h⟩ := bind_ok h
      obtain ⟨cid, _, h⟩ := bind_ok h
      obtain ⟨ncid, _, h⟩ := bind_ok h
      simp only [pure, Except.pure, Except.ok.injEq] at h
      subst h
      exact (step_findOrCreateSet ncid ncsid eid st).scomp
        (step_create_ciel_mapping cfg ts csS "SAME-AS" ncsid eid _)
    · exact absurd h (by simp)

theorem step_create_external_mapping {cfg : Config}
    {mt fu tsu tcc eid : String} {st st' : SyncState}
    (h : create_external_mapping cfg mt fu tsu tcc eid st = .ok st') : Step st st' := by
  unfold create_external_mapping at h
  obtain ⟨sn, _, h⟩ := bind_ok h
  obtain ⟨cidS, _, h⟩ := bind_ok h
  obtain ⟨cid, _, h⟩ := bind_ok h
  obtain ⟨ncid, _, h⟩ := bind_ok h
  obtain ⟨fs, _, h⟩ := bind_ok h
  simp only [pure, Except.pure, Except.ok.injEq] at h
  subst h
  refine Step.scomp ?_ (step_create_ciel_mapping _ _ _ _ _ _ _)
  refine Step.scomp ?_ (step_bumpGensym _)
  refine Step.scomp ?_ (step_findOrCreateRefMap _ _ _ _ _)
  refine Step.scomp ?_ (step_findOrCreateMapType _ _)
  refine Step.scomp ?_ (step_findOrCreateTerm _ _ _)
  exact step_findOrCreateSource _ _

theorem internalBranch_facts {cfg : Config} {r : MappingRecord}
    {st st' : SyncState} (h : internalBranch cfg r st = .ok st') :
    DB.Ext st.db st'.db ∧ st'.newIds = st.newIds ∧
      ∃ es, st'.trace = st.trace ++ es ∧ ∀ e ∈ es, e.isMappingEvent = true := by
  unfold internalBranch at h
  split at h
  · obtain ⟨mt, _, h⟩ := bind_ok h
    obtain ⟨fu, _, h⟩ := bind_ok h
    obtain ⟨tu, _, h⟩ := bind_ok h
    obtain ⟨eid, _, h⟩ := bind_ok h
    have s := step_create_internal_mapping h
    refine ⟨s.ext, s.ids, [Event.internalMapping r], ?_, ?_⟩
    · rw [s.tr]
    · intro e he
      simp only [List.mem_singleton] at he
      subst he
      rfl
  · cases h
    exact ⟨DB.Ext.rfl _, rfl, [], by simp, by simp⟩

theorem externalBranch_facts {cfg : Config} {r : MappingRecord}
    {st st' : SyncState} (h : externalBranch cfg r st = .ok st') :
    DB.Ext st.db st'.db ∧ st'.newIds = st.newIds ∧
      ∃ es, st'.trace = st.trace ++ es ∧ ∀ e ∈ es, e.isMappingEvent = true := by
  unfold externalBranch at h
  split at h
  · obtain ⟨mt, _, h⟩ := bind_ok h
    obtain ⟨fu, _, h⟩ := bind_ok h
    obtain ⟨tsu, _, h⟩ := bind_ok h
    obtain ⟨tcc, _, h⟩ := bind_ok h
    obtain ⟨eid, _, h⟩ := bind_ok h
    have s := step_create_external_mapping h
    refine ⟨s.ext, s.ids, [Event.externalMapping r], ?_, ?_⟩
    · rw [s.tr]
    · intro e he
      simp only [List.mem_singleton] at he
      subst he
      rfl
  · cases h
    exact ⟨DB.Ext.rfl _, rfl, [], by simp, by simp⟩

theorem sync_mapping_one_facts {cfg : Config} {r : MappingRecord}
    {st st' : SyncState} (h : sync_mapping_one cfg r st = .ok st') :
    DB.Ext st.db st'.db ∧ st'.newIds = st.newIds ∧
      ∃ es, st'.trace = st.trace ++ es ∧ ∀ e ∈ es, e.isMappingEvent = true := by
  unfold sync_mapping_one at h
  obtain ⟨stm, hm, h⟩ := bind_ok h
  obtain ⟨e1, i1, es1, t1, m1⟩ := internalBranch_facts hm
  obtain ⟨e2, i2, es2, t2, m2⟩ := externalBranch_facts h
  refine ⟨e1.comp e2, i2.trans i1, es1 ++ es2, ?_, ?_⟩
  · rw [t2, t1, List.append_assoc]
  · intro e he
    rcases List.mem_append.mp he with h' | h'
    · exact m1 e h'
    · exact m2 e h'

theorem sync_mapping_facts {cfg : Config} {ms : List MappingRecord} :
    ∀ {st st' : SyncState}, sync_mapping cfg ms st = .ok st' →
      DB.Ext st.db st'.db ∧ st'.newIds = st.newIds ∧
        ∃ es, st'.trace = st.trace ++ es ∧ ∀ e ∈ es, e.isMappingEvent = true := by
  induction ms with
  | nil =>
    intro st st' h
    unfold sync_mapping at h
    cases h
    exact ⟨DB.Ext.rfl _, rfl, [], by simp, by simp⟩
  | cons m rest ih =>
    intro st st' h
    unfold sync_mapping at h
    obtain ⟨stm, hm, h⟩ := bind_ok h
    obtain ⟨e1, i1, es1, t1, m1⟩ := sync_mapping_one_facts hm
    obtain ⟨e2, i2, es2, t2, m2⟩ := ih h
    refine ⟨e1.comp e2, i2.trans i1, es1 ++ es2, ?_, ?_⟩
    · rw [t2, t1, List.append_assoc]
    · intro e he
      rcases List.mem_append.mp he with h' | h'
      · exact m1 e h'
      · exact m2 e h'

theorem sync_concept_loop_facts {cs : List ConceptRecord} :
    ∀ {st st' : SyncState}, sync_concept_loop cs st = .ok st' →
      DB.Ext st.db st'.db ∧
        st'.trace = st.trace ++ cs.map Event.conceptProcessed ∧
        ListExt st.newIds st'.newIds ∧
        (∀ c ∈ cs, ∀ i, c.id = some i → ∃ nid, (i, nid) ∈ st'.newIds) := by
  induction cs with
  | nil =>
    intro st st' h
    unfold sync_concept_loop at h
    cases h
    exact ⟨DB.Ext.rfl _, by simp, ListExt.refl _, by simp⟩
  | cons c rest ih =>
    intro st st' h
    unfold sync_concept_loop at h
    obtain ⟨stm, hm, h⟩ := bind_ok h
    obtain ⟨ext1, tr1, idsCase⟩ := sync_concept_facts hm
    obtain ⟨ext2, tr2, idsExt2, mem2⟩ := ih h
    have trStep : stm.trace = st.trace ++ [Event.conceptProcessed c] := tr1
    have idsStep : ListExt st.newIds stm.newIds := by
      rcases idsCase with ⟨i, nid, _, hap⟩ | ⟨_, heq⟩
      · exact ⟨[(i, nid)], hap⟩
      · rw [heq]
        exact ListExt.refl _
    refine ⟨ext1.comp ext2, ?_, idsStep.trans idsExt2, ?_⟩
    · rw [tr2, trStep, List.append_assoc]
      rfl
    · intro c' hc' i hi
      cases hc' with
      | head =>
        rcases idsCase with ⟨j, nid, hj, hap⟩ | ⟨hnone, _⟩
        · rw [hi] at hj
          obtain rfl : i = j := Option.some.inj hj
          obtain ⟨e2, he2⟩ := idsExt2
          refine ⟨nid, ?_⟩
          rw [he2, hap]
          simp
        · rw [hi] at hnone
          cases hnone
      | tail _ hmem => exact mem2 c' hmem i hi

/-- `sync_db` only appends rows; existing rows are never modified. -/
theorem sync_db_ext {cfg : Config} {cs : List ConceptRecord}
    {ms : List MappingRecord} {st st' : SyncState}
    (h : sync_db cfg cs ms st = .ok st') : DB.Ext st.db st'.db := by
  unfold sync_db at h
  obtain ⟨stm, hm, h⟩ := bind_ok h
  exact (sync_concept_loop_facts hm).1.comp (sync_mapping_facts h).1

/-! ## Replay lemmas: re-running an operation against the final store of a
successful run finds every row it created and creates nothing new -/

theorem ok_bind {α β : Type} (a : α) (f : α → Except Err β) :
    (Except.ok a : Except Err α) >>= f = f a := rfl

theorem replay_getConceptClass {c : ConceptRecord} {st₁ : SyncState}
    {r : ConceptClassRow} {st₁' : SyncState}
    (h : getConceptClass c st₁ = .ok (r, st₁'))
    {D : DB} (hD : DB.Ext st₁'.db D) {st₂ : SyncState} (hdb : st₂.db = D) :
    getConceptClass c st₂ = .ok (r, st₂) := by
  obtain ⟨n, hn, hcase⟩ := getConceptClass_inv h
  have hfind : lookupClass n st₂.db = some r := by
    rcases hcase with ⟨hfound, rfl⟩ | ⟨hmiss, ret, hret, hpair⟩
    · obtain ⟨e, he⟩ := hD.classes
      unfold lookupClass at hfound ⊢
      rw [hdb, he]
      exact find_mono e hfound
    · have hst : st₁' = (insertClass n ret st₁).2 := congrArg Prod.snd hpair
      have hr : r = (insertClass n ret st₁).1 := congrArg Prod.fst hpair
      obtain ⟨e, he⟩ := hD.classes
      rw [hst] at he
      unfold lookupClass at hmiss ⊢
      rw [hdb, he, hr]
      exact find_push e hmiss (by simp [insertClass])
  unfold getConceptClass
  rw [hn]
  simp only [reqField, ok_bind, hfind]

theorem replay_getConceptDatatype {c : ConceptRecord} {st₁ : SyncState}
    {r : ConceptDatatypeRow} {st₁' : SyncState}
    (h : getConceptDatatype c st₁ = .ok (r, st₁'))
    {D : DB} (hD : DB.Ext st₁'.db D) {st₂ : SyncState} (hdb : st₂.db = D) :
    getConceptDatatype c st₂ = .ok (r, st₂) := by
  obtain ⟨n, hn, hcase⟩ := getConceptDatatype_inv h
  have hfind : lookupDatatype n st₂.db = some r := by
    rcases hcase with ⟨hfound, rfl⟩ | ⟨hmiss, hpair⟩
    · obtain ⟨e, he⟩ := hD.dts
      unfold lookupDatatype at hfound ⊢
      rw [hdb, he]
      exact find_mono e hfound
    · have hst : st₁' = (insertDatatype n st₁).2 := congrArg Prod.snd hpair
      have hr : r = (insertDatatype n st₁).1 := congrArg Prod.fst hpair
      obtain ⟨e, he⟩ := hD.dts
      rw [hst] at he
      unfold lookupDatatype at hmiss ⊢
      rw [hdb, he, hr]
      exact find_push e hmiss (by simp [insertDatatype])
  unfold getConceptDatatype
  rw [hn]
  simp only [reqField, ok_bind, hfind]

theorem replay_processNames {c : ConceptRecord} {cl : ConceptClassRow}
    {dt : ConceptDatatypeRow} {isSet : Bool} {ns : List NameRec} :
    ∀ {cc₁ : Option ConceptRow} {st₁ : SyncState} {ccOut₁ : Option ConceptRow}
      {st₁' : SyncState},
      processNames c cl dt isSet ns cc₁ st₁ = .ok (ccOut₁, st₁') →
      ∀ {D : DB}, DB.Ext st₁'.db D →
      ∀ {cc₂ : Option ConceptRow} {st₂ : SyncState}, st₂.db = D →
      OptRel D cc₁ cc₂ →
      ∃ ccOut₂, processNames c cl dt isSet ns cc₂ st₂ = .ok (ccOut₂, st₂) ∧
        OptRel D ccOut₁ ccOut₂ := by
  induction ns with
  | nil =>
    intro cc₁ st₁ ccOut₁ st₁' h D hD cc₂ st₂ hdb hrel
    unfold processNames at h
    simp only [Except.ok.injEq, Prod.mk.injEq] at h
    obtain ⟨rfl, rfl⟩ := h
    exact ⟨cc₂, rfl, hrel⟩
  | cons n rest ih =>
    intro cc₁ st₁ ccOut₁ st₁' h D hD cc₂ st₂ hdb hrel
    unfold processNames at h
    cases hl : lookupConceptName n st₁.db with
    | some nr =>
      rw [hl] at h
      obtain ⟨found, hfound, h⟩ := bind_ok h
      -- the tail of the original run starts from st₁ unchanged
      have hTailStep : Step st₁ st₁' := step_processNames h
      have hExtD : DB.Ext st₁.db D := hTailStep.ext.comp hD
      have hl₂ : lookupConceptName n st₂.db = some nr := by
        obtain ⟨e, he⟩ := hExtD.names
        unfold lookupConceptName at hl ⊢
        rw [hdb, he]
        exact find_mono e hl
      have hfound₂ : conceptById nr.concept_id st₂.db = .ok found := by
        have hf := conceptById_inv hfound
        obtain ⟨e, he⟩ := hExtD.cons
        unfold conceptById
        rw [hdb, he, find_mono e hf]
      have hmem : found ∈ D.concepts := by
        obtain ⟨e, he⟩ := hExtD.cons
        rw [hdb] at hfound₂
        exact List.mem_of_find?_eq_some (conceptById_inv hfound₂)
      obtain ⟨ccOut₂, hrep, hrel'⟩ := ih h hD hdb
        (show OptRel D (some found) (some found) from ⟨rfl, found, hmem, rfl⟩)
      refine ⟨ccOut₂, ?_, hrel'⟩
      unfold processNames
      rw [hl₂]
      show (do
        let found ← conceptById nr.concept_id st₂.db
        processNames c cl dt isSet rest (some found) st₂) = .ok (ccOut₂, st₂)
      rw [hfound₂, ok_bind]
      exact hrep
    | none =>
      rw [hl] at h
      cases cc₁ with
      | some c0 =>
        obtain ⟨p, hp, h⟩ := bind_ok h
        cases hp
        -- the original run inserts the name row for c0 and recurses
        have hTailStep : Step (insertConceptName c0.concept_id n st₁).2 st₁' :=
          step_processNames h
        have hExtD : DB.Ext (insertConceptName c0.concept_id n st₁).2.db D :=
          hTailStep.ext.comp hD
        cases cc₂ with
        | none => exact absurd hrel (by simp [OptRel])
        | some b0 =>
          obtain ⟨hid, y0, hy0mem, hy0id⟩ := hrel
          obtain ⟨e, he⟩ := hExtD.names
          have hl₂ : lookupConceptName n st₂.db =
              some (insertConceptName c0.concept_id n st₁).1 := by
            unfold lookupConceptName at hl ⊢
            rw [hdb, he]
            exact find_push e hl (by simp [insertConceptName])
          obtain ⟨y, hyfind, hyp⟩ :=
            find_exists (fun x => x.concept_id == c0.concept_id) hy0mem
              (by simp [hy0id])
          have hyc : y.concept_id = c0.concept_id := by simpa using hyp
          have hby : conceptById (insertConceptName c0.concept_id n st₁).1.concept_id
              st₂.db = .ok y := by
            unfold conceptById
            rw [hdb]
            show (match D.concepts.find? (fun x => x.concept_id == c0.concept_id) with
              | some r => Except.ok r
              | none => Except.error (Err.doesNotExist "Concept")) = Except.ok y
            rw [hyfind]
          have hrel' : OptRel D (some c0) (some y) :=
            ⟨hyc.symm, y0, hy0mem, hy0id⟩
          obtain ⟨ccOut₂, hrep, hrelOut⟩ := ih h hD hdb hrel'
          refine ⟨ccOut₂, ?_, hrelOut⟩
          unfold processNames
          rw [hl₂]
          show (do
            let found ← conceptById (insertConceptName c0.concept_id n st₁).1.concept_id
              st₂.db
            processNames c cl dt isSet rest (some found) st₂) = .ok (ccOut₂, st₂)
          rw [hby, ok_bind]
          exact hrep
      | none =>
        obtain ⟨extId, hei, h⟩ := bind_ok h
        obtain ⟨ret, hrt, h⟩ := bind_ok h
        obtain ⟨p, hp, h⟩ := bind_ok h
        cases hp
        have hTailStep : Step (insertConceptName
            (insertConcept cl dt isSet extId ret c.description st₁).1.concept_id n
            (insertConcept cl dt isSet extId ret c.description st₁).2).2 st₁' :=
          step_processNames h
        have hExtD : DB.Ext (insertConceptName
            (insertConcept cl dt isSet extId ret c.description st₁).1.concept_id n
            (insertConcept cl dt isSet extId ret c.description st₁).2).2.db D :=
          hTailStep.ext.comp hD
        cases cc₂ with
        | some b0 => exact absurd hrel (by simp [OptRel])
        | none =>
          obtain ⟨e, he⟩ := hExtD.names
          have hl₂ : lookupConceptName n st₂.db =
              some (insertConceptName
                (insertConcept cl dt isSet extId ret c.description st₁).1.concept_id n
                (insertConcept cl dt isSet extId ret c.description st₁).2).1 := by
            unfold lookupConceptName at hl ⊢
            rw [hdb, he]
            exact find_push e hl (by simp [insertConceptName])
          have hcrowD : (insertConcept cl dt isSet extId ret c.description st₁).1 ∈
              D.concepts := by
            obtain ⟨e₂, he₂⟩ := hExtD.cons
            rw [he₂]
            exact List.mem_append_left _ (List.mem_append_right _ (by simp [insertConcept]))
          obtain ⟨y, hyfind, hyp⟩ := find_exists
            (fun x => x.concept_id ==
              (insertConcept cl dt isSet extId ret c.description st₁).1.concept_id)
            hcrowD (by simp)
          have hyc : y.concept_id =
              (insertConcept cl dt isSet extId ret c.description st₁).1.concept_id := by
            simpa using hyp
          have hby : conceptById (insertConceptName
              (insertConcept cl dt isSet extId ret c.description st₁).1.concept_id n
              (insertConcept cl dt isSet extId ret c.description st₁).2).1.concept_id
              st₂.db = .ok y := by
            unfold conceptById
            rw [hdb]
            show (match D.concepts.find? (fun x => x.concept_id ==
              (insertConcept cl dt isSet extId ret c.description st₁).1.concept_id) with
              | some r => Except.ok r
              | none => Except.error (Err.doesNotExist "Concept")) = Except.ok y
            rw [hyfind]
          have hrel' : OptRel D
              (some (insertConcept cl dt isSet extId ret c.description st₁).1)
              (some y) :=
            ⟨hyc.symm, y, List.mem_of_find?_eq_some hyfind, hyc⟩
          obtain ⟨ccOut₂, hrep, hrelOut⟩ := ih h hD hdb hrel'
          refine ⟨ccOut₂, ?_, hrelOut⟩
          unfold processNames
          rw [hl₂]
          show (do
            let found ← conceptById (insertConceptName
              (insertConcept cl dt isSet extId ret c.description st₁).1.concept_id n
              (insertConcept cl dt isSet extId ret c.description st₁).2).1.concept_id
              st₂.db
            processNames c cl dt isSet rest (some found) st₂) = .ok (ccOut₂, st₂)
          rw [hby, ok_bind]
          exact hrep

theorem replay_processDescs {cid : Nat} (ds : List DescRec) :
    ∀ {st₁ : SyncState}
    {D : DB}, DB.Ext (processDescs cid ds st₁).db D →
    ∀ {st₂ : SyncState}, st₂.db = D → processDescs cid ds st₂ = st₂ := by
  induction ds with
  | nil =>
    intro st₁ D hD st₂ hdb
    rfl
  | cons d rest ih =>
    intro st₁ D hD st₂ hdb
    cases hf : st₁.db.concept_descriptions.find?
        (fun r => r.concept_id == cid && r.description == d.description) with
    | some q =>
      have heq : processDescs cid (d :: rest) st₁ = processDescs cid rest st₁ := by
        unfold processDescs
        simp only [hf]
        cases rest <;> rfl
      rw [heq] at hD
      have hExt : DB.Ext st₁.db D := (step_processDescs cid rest st₁).ext.comp hD
      obtain ⟨e, he⟩ := hExt.descs
      have hf₂ : st₂.db.concept_descriptions.find?
          (fun r => r.concept_id == cid && r.description == d.description) = some q := by
        rw [hdb, he]
        exact find_mono e hf
      unfold processDescs
      simp only [hf₂]
      exact ih hD hdb
    | none =>
      have heq : processDescs cid (d :: rest) st₁ =
          processDescs cid rest (insertConceptDescription cid d st₁).2 := by
        unfold processDescs
        simp only [hf]
        cases rest <;> rfl
      rw [heq] at hD
      have hExtD : DB.Ext (insertConceptDescription cid d st₁).2.db D :=
        (step_processDescs cid rest (insertConceptDescription cid d st₁).2).ext.comp hD
      obtain ⟨e, he⟩ := hExtD.descs
      have hf₂ : st₂.db.concept_descriptions.find?
          (fun r => r.concept_id == cid && r.description == d.description) =
          some (insertConceptDescription cid d st₁).1 := by
        rw [hdb, he]
        exact find_push e hf (by simp [insertConceptDescription])
      unfold processDescs
      simp only [hf₂]
      exact ih hD hdb

theorem replay_sync_concept {c : ConceptRecord} {st₁ st₁' : SyncState}
    (h : sync_concept c st₁ = .ok st₁')
    {D : DB} (hD : DB.Ext st₁'.db D) {st₂ : SyncState} (hdb : st₂.db = D)
    (hids : st₂.newIds = st₁.newIds) :
    ∃ st₂', sync_concept c st₂ = .ok st₂' ∧ st₂'.db = D ∧
      st₂'.newIds = st₁'.newIds := by
  unfold sync_concept at h
  obtain ⟨p₁, h₁, h⟩ := bind_ok h
  obtain ⟨cl, st₁a⟩ := p₁
  obtain ⟨p₂, h₂, h⟩ := bind_ok h
  obtain ⟨dt, st₁b⟩ := p₂
  obtain ⟨ns, hns, h⟩ := bind_ok h
  obtain ⟨ex, hex, h⟩ := bind_ok h
  obtain ⟨p₃, h₃, h⟩ := bind_ok h
  obtain ⟨ccOpt, st₁c⟩ := p₃
  cases ccOpt with
  | none => exact absurd h (by simp [Bind.bind, Except.bind])
  | some crow =>
    obtain ⟨y, hy, h⟩ := bind_ok h
    cases hy
    cases hid : c.id with
    | some i =>
      rw [hid] at h
      obtain ⟨ds, hds, h⟩ := bind_ok h
      simp only [pure, Except.pure, Except.ok.injEq] at h
      subst h
      have sPD := step_processDescs crow.concept_id ds
        { st₁c with newIds := st₁c.newIds ++ [(i, crow.concept_id)] }
      have hD_c : DB.Ext st₁c.db D := sPD.ext.comp hD
      have sNames : Step st₁b st₁c := step_processNames h₃
      have hD_b : DB.Ext st₁b.db D := sNames.ext.comp hD_c
      have sDT : Step st₁a st₁b := step_getConceptDatatype h₂
      have hD_a : DB.Ext st₁a.db D := sDT.ext.comp hD_b
      have sCL : Step { st₁ with cnt_concepts_created := st₁.cnt_concepts_created + 1 }
          st₁a := step_getConceptClass h₁
      have e₁ : getConceptClass c
          { st₂ with cnt_concepts_created := st₂.cnt_concepts_created + 1 } =
          .ok (cl, { st₂ with cnt_concepts_created := st₂.cnt_concepts_created + 1 }) :=
        replay_getConceptClass h₁ hD_a hdb
      have e₂ : getConceptDatatype c
          { st₂ with cnt_concepts_created := st₂.cnt_concepts_created + 1 } =
          .ok (dt, { st₂ with cnt_concepts_created := st₂.cnt_concepts_created + 1 }) :=
        replay_getConceptDatatype h₂ hD_b hdb
      obtain ⟨ccOut₂, e₃, hrelOut⟩ :=
        replay_processNames h₃ hD_c
          (show ({ st₂ with cnt_concepts_created := st₂.cnt_concepts_created + 1 }).db = D
            from hdb)
          (show OptRel D none none from trivial)
      cases ccOut₂ with
      | none => exact absurd hrelOut (by simp [OptRel])
      | some y₂ =>
        obtain ⟨hidEq, -⟩ := hrelOut
        have e₄ : processDescs crow.concept_id ds
            { st₂ with
              cnt_concepts_created := st₂.cnt_concepts_created + 1,
              newIds := st₂.newIds ++ [(i, y₂.concept_id)] } =
            { st₂ with
              cnt_concepts_created := st₂.cnt_concepts_created + 1,
              newIds := st₂.newIds ++ [(i, y₂.concept_id)] } :=
          replay_processDescs ds hD hdb
        rw [hidEq] at e₄
        refine ⟨{ st₂ with
          cnt_concepts_created := st₂.cnt_concepts_created + 1,
          newIds := st₂.newIds ++ [(i, y₂.concept_id)] }, ?_, ?_, ?_⟩
        · unfold sync_concept
          dsimp only
          rw [e₁, ok_bind]
          show (do
            let (dt, st) ← getConceptDatatype c
              { st₂ with cnt_concepts_created := st₂.cnt_concepts_created + 1 }
            let ns ← reqField "names" c.names
            let ex ← reqField "extras" c.extras
            let isSet := ex.is_set.getD false
            let (ccOpt, st) ← processNames c cl dt isSet ns none st
            let crow ←
              match ccOpt with
              | some r => Except.ok r
              | none => Except.error (Err.attributeError "concept_id")
            let st :=
              match c.id with
              | some i => { st with newIds := st.newIds ++ [(i, crow.concept_id)] }
              | none => st
            let ds ← reqField "descriptions" c.descriptions
            let st := processDescs crow.concept_id ds st
            pure st) = Except.ok _
          rw [e₂, ok_bind, hns]
          show (do
            let ex ← reqField "extras" c.extras
            let isSet := ex.is_set.getD false
            let (ccOpt, st) ← processNames c cl dt isSet ns none
              { st₂ with cnt_concepts_created := st₂.cnt_concepts_created + 1 }
            let crow ←
              match ccOpt with
              | some r => Except.ok r
              | none => Except.error (Err.attributeError "concept_id")
            let st :=
              match c.id with
              | some i => { st with newIds := st.newIds ++ [(i, crow.concept_id)] }
              | none => st
            let ds ← reqField "descriptions" c.descriptions
            let st := processDescs crow.concept_id ds st
            pure st) = Except.ok _
          rw [hex]
          show (do
            let (ccOpt, st) ← processNames c cl dt (ex.is_set.getD false) ns none
              { st₂ with cnt_concepts_created := st₂.cnt_concepts_created + 1 }
            let crow ←
              match ccOpt with
              | some r => Except.ok r
              | none => Except.error (Err.attributeError "concept_id")
            let st :=
              match c.id with
              | some i => { st with newIds := st.newIds ++ [(i, crow.concept_id)] }
              | none => st
            let ds ← reqField "descriptions" c.descriptions
            let st := processDescs crow.concept_id ds st
            pure st) = Except.ok _
          rw [e₃, ok_bind]
          show (do
            let st :=
              match c.id with
              | some j => { st₂ with
                  cnt_concepts_created := st₂.cnt_concepts_created + 1,
                  newIds := st₂.newIds ++ [(j, y₂.concept_id)] }
              | none => { st₂ with
                  cnt_concepts_created := st₂.cnt_concepts_created + 1 }
            let ds ← reqField "descriptions" c.descriptions
            let st := processDescs y₂.concept_id ds st
            pure st) = Except.ok _
          rw [hid, hds]
          show Except.ok (processDescs y₂.concept_id ds
            { st₂ with
              cnt_concepts_created := st₂.cnt_concepts_created + 1,
              newIds := st₂.newIds ++ [(i, y₂.concept_id)] }) = Except.ok _
          rw [e₄]
        · exact hdb
        · rw [sPD.ids]
          show st₂.newIds ++ [(i, y₂.concept_id)] = st₁c.newIds ++ [(i, crow.concept_id)]
          rw [sNames.ids, sDT.ids, sCL.ids]
          show st₂.newIds ++ [(i, y₂.concept_id)] = st₁.newIds ++ [(i, crow.concept_id)]
          rw [hids, hidEq]
    | none =>
      rw [hid] at h
      obtain ⟨ds, hds, h⟩ := bind_ok h
      simp only [pure, Except.pure, Except.ok.injEq] at h
      subst h
      have sPD := step_processDescs crow.concept_id ds st₁c
      have hD_c : DB.Ext st₁c.db D := sPD.ext.comp hD
      have sNames : Step st₁b st₁c := step_processNames h₃
      have hD_b : DB.Ext st₁b.db D := sNames.ext.comp hD_c
      have sDT : Step st₁a st₁b := step_getConceptDatatype h₂
      have hD_a : DB.Ext st₁a.db D := sDT.ext.comp hD_b
      have sCL : Step { st₁ with cnt_concepts_created := st₁.cnt_concepts_created + 1 }
          st₁a := step_getConceptClass h₁
      have e₁ : getConceptClass c
          { st₂ with cnt_concepts_created := st₂.cnt_concepts_created + 1 } =
          .ok (cl, { st₂ with cnt_concepts_created := st₂.cnt_concepts_created + 1 }) :=
        replay_getConceptClass h₁ hD_a hdb
      have e₂ : getConceptDatatype c
          { st₂ with cnt_concepts_created := st₂.cnt_concepts_created + 1 } =
          .ok (dt, { st₂ with cnt_concepts_created := st₂.cnt_concepts_created + 1 }) :=
        replay_getConceptDatatype h₂ hD_b hdb
      obtain ⟨ccOut₂, e₃, hrelOut⟩ :=
        replay_processNames h₃ hD_c
          (show ({ st₂ with cnt_concepts_created := st₂.cnt_concepts_created + 1 }).db = D
            from hdb)
          (show OptRel D none none from trivial)
      cases ccOut₂ with
      | none => exact absurd hrelOut (by simp [OptRel])
      | some y₂ =>
        obtain ⟨hidEq, -⟩ := hrelOut
        have e₄ : processDescs crow.concept_id ds
            { st₂ with cnt_concepts_created := st₂.cnt_concepts_created + 1 } =
            { st₂ with cnt_concepts_created := st₂.cnt_concepts_created + 1 } :=
          replay_processDescs ds hD hdb
        rw [hidEq] at e₄
        refine ⟨{ st₂ with
          cnt_concepts_created := st₂.cnt_concepts_created + 1 }, ?_, ?_, ?_⟩
        · unfold sync_concept
          dsimp only
          rw [e₁, ok_bind]
          show (do
            let (dt, st) ← getConceptDatatype c
              { st₂ with cnt_concepts_created := st₂.cnt_concepts_created + 1 }
            let ns ← reqField "names" c.names
            let ex ← reqField "extras" c.extras
            let isSet := ex.is_set.getD false
            let (ccOpt, st) ← processNames c cl dt isSet ns none st
            let crow ←
              match ccOpt with
              | some r => Except.ok r
              | none => Except.error (Err.attributeError "concept_id")
            let st :=
              match c.id with
              | some i => { st with newIds := st.newIds ++ [(i, crow.concept_id)] }
              | none => st
            let ds ← reqField "descriptions" c.descriptions
            let st := processDescs crow.concept_id ds st
            pure st) = Except.ok _
          rw [e₂, ok_bind, hns]
          show (do
            let ex ← reqField "extras" c.extras
            let isSet := ex.is_set.getD false
            let (ccOpt, st) ← processNames c cl dt isSet ns none
              { st₂ with cnt_concepts_created := st₂.cnt_concepts_created + 1 }
            let crow ←
              match ccOpt with
              | some r => Except.ok r
              | none => Except.error (Err.attributeError "concept_id")
            let st :=
              match c.id with
              | some i => { st with newIds := st.newIds ++ [(i, crow.concept_id)] }
              | none => st
            let ds ← reqField "descriptions" c.descriptions
            let st := processDescs crow.concept_id ds st
            pure st) = Except.ok _
          rw [hex]
          show (do
            let (ccOpt, st) ← processNames c cl dt (ex.is_set.getD false) ns none
              { st₂ with cnt_concepts_created := st₂.cnt_concepts_created + 1 }
            let crow ←
              match ccOpt with
              | some r => Except.ok r
              | none => Except.error (Err.attributeError "concept_id")
            let st :=
              match c.id with
              | some i => { st with newIds := st.newIds ++ [(i, crow.concept_id)] }
              | none => st
            let ds ← reqField "descriptions" c.descriptions
            let st := processDescs crow.concept_id ds st
            pure st) = Except.ok _
          rw [e₃, ok_bind]
          show (do
            let st :=
              match c.id with
              | some j => { st₂ with
                  cnt_concepts_created := st₂.cnt_concepts_created + 1,
                  newIds := st₂.newIds ++ [(j, y₂.concept_id)] }
              | none => { st₂ with
                  cnt_concepts_created := st₂.cnt_concepts_created + 1 }
            let ds ← reqField "descriptions" c.descriptions
            let st := processDescs y₂.concept_id ds st
            pure st) = Except.ok _
          rw [hid, hds]
          show Except.ok (processDescs y₂.concept_id ds
            { st₂ with cnt_concepts_created := st₂.cnt_concepts_created + 1 }) =
            Except.ok _
          rw [e₄]
        · exact hdb
        · rw [sPD.ids]
          show st₂.newIds = st₁c.newIds
          rw [sNames.ids, sDT.ids, sCL.ids]
          show st₂.newIds = st₁.newIds
          exact hids

theorem find_push0 {ρ : Type} {l : List ρ} {p : ρ → Bool} {x : ρ}
    (h : l.find? p = none) (hx : p x = true) : (l ++ [x]).find? p = some x := by
  rw [List.find?_append, h, List.find?_singleton]
  simp [hx]

theorem replay_sync_concept_loop {cs : List ConceptRecord} :
    ∀ {st₁ st₁' : SyncState}, sync_concept_loop cs st₁ = .ok st₁' →
    ∀ {D : DB}, DB.Ext st₁'.db D →
    ∀ {st₂ : SyncState}, st₂.db = D → st₂.newIds = st₁.newIds →
    ∃ st₂', sync_concept_loop cs st₂ = .ok st₂' ∧ st₂'.db = D ∧
      st₂'.newIds = st₁'.newIds := by
  induction cs with
  | nil =>
    intro st₁ st₁' h D hD st₂ hdb hids
    unfold sync_concept_loop at h
    cases h
    exact ⟨st₂, rfl, hdb, hids⟩
  | cons c rest ih =>
    intro st₁ st₁' h D hD st₂ hdb hids
    unfold sync_concept_loop at h
    obtain ⟨stm, hm, h⟩ := bind_ok h
    have hD_m : DB.Ext stm.db D := (sync_concept_loop_facts h).1.comp hD
    obtain ⟨st₂m, e₁, hdb₂, hids₂⟩ := replay_sync_concept hm hD_m
      (show ({ st₂ with
          cnt_total_concepts_processed := st₂.cnt_total_concepts_processed + 1,
          trace := st₂.trace ++ [Event.conceptProcessed c] }).db = D from hdb)
      (show ({ st₂ with
          cnt_total_concepts_processed := st₂.cnt_total_concepts_processed + 1,
          trace := st₂.trace ++ [Event.conceptProcessed c] }).newIds =
        ({ st₁ with
          cnt_total_concepts_processed := st₁.cnt_total_concepts_processed + 1,
          trace := st₁.trace ++ [Event.conceptProcessed c] }).newIds from hids)
    obtain ⟨st₂', e₂, hdb', hids'⟩ := ih h hD hdb₂ hids₂
    refine ⟨st₂', ?_, hdb', hids'⟩
    unfold sync_concept_loop
    dsimp only
    rw [e₁, ok_bind]
    exact e₂

theorem replay_findOrCreateSource (n : String) (st₁ : SyncState) {D : DB}
    (hD : DB.Ext (findOrCreateSource n st₁).2.db D) {st₂ : SyncState}
    (hdb : st₂.db = D) :
    findOrCreateSource n st₂ = ((findOrCreateSource n st₁).1, st₂) := by
  have hpost : (findOrCreateSource n st₁).2.db.reference_sources.find?
      (fun r => r.name == n) = some (findOrCreateSource n st₁).1 := by
    unfold findOrCreateSource
    cases hf : st₁.db.reference_sources.find? (fun r => r.name == n) with
    | some q =>
      simp only [hf]
    | none =>
      simp only [hf]
      exact find_push0 hf (by simp)
  obtain ⟨e, he⟩ := hD.sources
  have hf₂ : st₂.db.reference_sources.find? (fun r => r.name == n) =
      some (findOrCreateSource n st₁).1 := by
    rw [hdb, he]
    exact find_mono e hpost
  unfold findOrCreateSource
  simp only [hf₂]
  rfl

theorem replay_findOrCreateTerm (code : String) (srcId : Nat) (st₁ : SyncState)
    {D : DB} (hD : DB.Ext (findOrCreateTerm code srcId st₁).2.db D)
    {st₂ : SyncState} (hdb : st₂.db = D) :
    findOrCreateTerm code srcId st₂ = ((findOrCreateTerm code srcId st₁).1, st₂) := by
  have hpost : (findOrCreateTerm code srcId st₁).2.db.reference_terms.find?
      (fun r => r.code == code && r.concept_source_id == srcId) =
      some (findOrCreateTerm code srcId st₁).1 := by
    unfold findOrCreateTerm
    cases hf : st₁.db.reference_terms.find?
        (fun r => r.code == code && r.concept_source_id == srcId) with
    | some q =>
      simp only [hf]
    | none =>
      simp only [hf]
      exact find_push0 hf (by simp)
  obtain ⟨e, he⟩ := hD.terms
  have hf₂ : st₂.db.reference_terms.find?
      (fun r => r.code == code && r.concept_source_id == srcId) =
      some (findOrCreateTerm code srcId st₁).1 := by
    rw [hdb, he]
    exact find_mono e hpost
  unfold findOrCreateTerm
  simp only [hf₂]
  rfl

theorem replay_findOrCreateMapType (n : String) (st₁ : SyncState) {D : DB}
    (hD : DB.Ext (findOrCreateMapType n st₁).2.db D) {st₂ : SyncState}
    (hdb : st₂.db = D) :
    findOrCreateMapType n st₂ = ((findOrCreateMapType n st₁).1, st₂) := by
  have hpost : (findOrCreateMapType n st₁).2.db.map_types.find?
      (fun r => r.name == n) = some (findOrCreateMapType n st₁).1 := by
    unfold findOrCreateMapType
    cases hf : st₁.db.map_types.find? (fun r => r.name == n) with
    | some q =>
      simp only [hf]
    | none =>
      simp only [hf]
      exact find_push0 hf (by simp)
  obtain ⟨e, he⟩ := hD.mtypes
  have hf₂ : st₂.db.map_types.find? (fun r => r.name == n) =
      some (findOrCreateMapType n st₁).1 := by
    rw [hdb, he]
    exact find_mono e hpost
  unfold findOrCreateMapType
  simp only [hf₂]
  rfl

theorem replay_findOrCreateRefMap (cid termId mtId : Nat) (u : String)
    (st₁ : SyncState) {D : DB}
    (hD : DB.Ext (findOrCreateRefMap cid termId mtId u st₁).db D)
    {st₂ : SyncState} (hdb : st₂.db = D) (u₂ : String) :
    findOrCreateRefMap cid termId mtId u₂ st₂ = st₂ := by
  have hpost : ∃ y, (findOrCreateRefMap cid termId mtId u st₁).db.reference_maps.find?
      (fun r => r.concept_id == cid && r.concept_reference_term_id == termId &&
        r.map_type_id == mtId) = some y := by
    unfold findOrCreateRefMap
    cases hf : st₁.db.reference_maps.find?
        (fun r => r.concept_id == cid && r.concept_reference_term_id == termId &&
          r.map_type_id == mtId) with
    | some q =>
      refine ⟨q, ?_⟩
      simp only [hf]
    | none =>
      simp only [hf]
      exact ⟨_, find_push0 hf (by simp)⟩
  obtain ⟨y, hy⟩ := hpost
  obtain ⟨e, he⟩ := hD.rmaps
  have hf₂ : st₂.db.reference_maps.find?
      (fun r => r.concept_id == cid && r.concept_reference_term_id == termId &&
        r.map_type_id == mtId) = some y := by
    rw [hdb, he]
    exact find_mono e hy
  unfold findOrCreateRefMap
  simp only [hf₂]

theorem replay_findOrCreateAnswer (q a : Nat) (u : String) (st₁ : SyncState)
    {D : DB} (hD : DB.Ext (findOrCreateAnswer q a u st₁).db D)
    {st₂ : SyncState} (hdb : st₂.db = D) :
    findOrCreateAnswer q a u st₂ = st₂ := by
  have hpost : ∃ y, (findOrCreateAnswer q a u st₁).db.concept_answers.find?
      (fun r => r.question_concept_id == q && r.answer_concept_id == a &&
        r.uuid == u) = some y := by
    unfold findOrCreateAnswer
    cases hf : st₁.db.concept_answers.find?
        (fun r => r.question_concept_id == q && r.answer_concept_id == a &&
          r.uuid == u) with
    | some qq =>
      refine ⟨qq, ?_⟩
      simp only [hf]
    | none =>
      simp only [hf]
      exact ⟨_, find_push0 hf (by simp)⟩
  obtain ⟨y, hy⟩ := hpost
  obtain ⟨e, he⟩ := hD.answers
  have hf₂ : st₂.db.concept_answers.find?
      (fun r => r.question_concept_id == q && r.answer_concept_id == a &&
        r.uuid == u) = some y := by
    rw [hdb, he]
    exact find_mono e hy
  unfold findOrCreateAnswer
  simp only [hf₂]

theorem replay_findOrCreateSet (cid owner : Nat) (u : String) (st₁ : SyncState)
    {D : DB} (hD : DB.Ext (findOrCreateSet cid owner u st₁).db D)
    {st₂ : SyncState} (hdb : st₂.db = D) :
    findOrCreateSet cid owner u st₂ = st₂ := by
  have hpost : ∃ y, (findOrCreateSet cid owner u st₁).db.concept_sets.find?
      (fun r => r.concept_id == cid && r.concept_set_owner_id == owner &&
        r.uuid == u) = some y := by
    unfold findOrCreateSet
    cases hf : st₁.db.concept_sets.find?
        (fun r => r.concept_id == cid && r.concept_set_owner_id == owner &&
          r.uuid == u) with
    | some qq =>
      refine ⟨qq, ?_⟩
      simp only [hf]
    | none =>
      simp only [hf]
      exact ⟨_, find_push0 hf (by simp)⟩
  obtain ⟨y, hy⟩ := hpost
  obtain ⟨e, he⟩ := hD.sets
  have hf₂ : st₂.db.concept_sets.find?
      (fun r => r.concept_id == cid && r.concept_set_owner_id == owner &&
        r.uuid == u) = some y := by
    rw [hdb, he]
    exact find_mono e hy
  unfold findOrCreateSet
  simp only [hf₂]

theorem replay_create_ciel_mapping (cfg : Config) (ts ci mt : String) (iad : Nat)
    (eid : String) (st₁ : SyncState) {D : DB}
    (hD : DB.Ext (create_ciel_mapping cfg ts ci mt iad eid st₁).db D)
    {st₂ : SyncState} (hdb : st₂.db = D) (eid₂ : String) :
    create_ciel_mapping cfg ts ci mt iad eid₂ st₂ = st₂ := by
  unfold create_ciel_mapping at hD ⊢
  have hD_C := (ext_findOrCreateRefMap _ _ _ _ _).comp hD
  have hD_B := (ext_findOrCreateMapType _ _).comp hD_C
  have hD_A := (ext_findOrCreateTerm _ _ _).comp hD_B
  have e1 := replay_findOrCreateSource (cfg.omrsIdOfOclId ts) st₁ hD_A hdb
  have e2 := replay_findOrCreateTerm ci
    (findOrCreateSource (cfg.omrsIdOfOclId ts) st₁).1.concept_source_id
    (findOrCreateSource (cfg.omrsIdOfOclId ts) st₁).2 hD_B hdb
  have e3 := replay_findOrCreateMapType mt
    (findOrCreateTerm ci
      (findOrCreateSource (cfg.omrsIdOfOclId ts) st₁).1.concept_source_id
      (findOrCreateSource (cfg.omrsIdOfOclId ts) st₁).2).2 hD_C hdb
  have e4 := replay_findOrCreateRefMap iad
    (findOrCreateTerm ci
      (findOrCreateSource (cfg.omrsIdOfOclId ts) st₁).1.concept_source_id
      (findOrCreateSource (cfg.omrsIdOfOclId ts) st₁).2).1.concept_reference_term_id
    (findOrCreateMapType mt
      (findOrCreateTerm ci
        (findOrCreateSource (cfg.omrsIdOfOclId ts) st₁).1.concept_source_id
        (findOrCreateSource (cfg.omrsIdOfOclId ts) st₁).2).2).1.concept_map_type_id
    eid
    (findOrCreateMapType mt
      (findOrCreateTerm ci
        (findOrCreateSource (cfg.omrsIdOfOclId ts) st₁).1.concept_source_id
        (findOrCreateSource (cfg.omrsIdOfOclId ts) st₁).2).2).2 hD hdb eid₂
  simp only [e1, e2, e3, e4]

theorem replay_get_new_id {st₁ st₂ : SyncState} {old nid : Nat}
    (h : get_new_id st₁ old = .ok nid) (hids : st₂.newIds = st₁.newIds) :
    get_new_id st₂ old = .ok nid := by
  unfold get_new_id at h ⊢
  rw [hids]
  exact h

theorem replay_create_internal_mapping {cfg : Config} {mt fu tu eid : String}
    {st₁ st₁' : SyncState}
    (h : create_internal_mapping cfg mt fu tu eid st₁ = .ok st₁')
    {D : DB} (hD : DB.Ext st₁'.db D) {st₂ : SyncState} (hdb : st₂.db = D)
    (hids : st₂.newIds = st₁.newIds) :
    create_internal_mapping cfg mt fu tu eid st₂ = .ok st₂ := by
  unfold create_internal_mapping at h ⊢
  split at h
  next hq =>
    rw [if_pos hq]
    obtain ⟨cs6, h6, h⟩ := bind_ok h
    obtain ⟨fs4, h4, h⟩ := bind_ok h
    obtain ⟨cid, hci, h⟩ := bind_ok h
    obtain ⟨ncid, hnc, h⟩ := bind_ok h
    obtain ⟨as6, h6b, h⟩ := bind_ok h
    obtain ⟨ts4, h4b, h⟩ := bind_ok h
    obtain ⟨aid, hai, h⟩ := bind_ok h
    obtain ⟨naid, hna, h⟩ := bind_ok h
    simp only [pure, Except.pure, Except.ok.injEq] at h
    subst h
    have hD_ans : DB.Ext (findOrCreateAnswer ncid naid eid st₁).db D :=
      (step_create_ciel_mapping _ _ _ _ _ _ _).ext.comp hD
    have eN1 := replay_get_new_id hnc hids
    have eN2 := replay_get_new_id hna hids
    have eAns := replay_findOrCreateAnswer ncid naid eid st₁ hD_ans hdb
    have eCiel := replay_create_ciel_mapping cfg ts4 cs6 "SAME-AS" naid eid
      (findOrCreateAnswer ncid naid eid st₁) hD hdb eid
    simp only [h6, h4, hci, eN1, h6b, h4b, hai, eN2, ok_bind, eAns, eCiel, pure,
      Except.pure]
  next hq =>
    split at h
    next hq2 =>
      rw [if_neg hq, if_pos hq2]
      obtain ⟨cs6, h6, h⟩ := bind_ok h
      obtain ⟨fs4, h4, h⟩ := bind_ok h
      obtain ⟨csid, hci, h⟩ := bind_ok h
      obtain ⟨ncsid, hnc, h⟩ := bind_ok h
      obtain ⟨ci6, h6b, h⟩ := bind_ok h
      obtain ⟨ts4, h4b, h⟩ := bind_ok h
      obtain ⟨cid, hai, h⟩ := bind_ok h
      obtain ⟨ncid, hna, h⟩ := bind_ok h
      simp only [pure, Except.pure, Except.ok.injEq] at h
      subst h
      have hD_set : DB.Ext (findOrCreateSet ncid ncsid eid st₁).db D :=
        (step_create_ciel_mapping _ _ _ _ _ _ _).ext.comp hD
      have eN1 := replay_get_new_id hnc hids
      have eN2 := replay_get_new_id hna hids
      have eSet := replay_findOrCreateSet ncid ncsid eid st₁ hD_set hdb
      have eCiel := replay_create_ciel_mapping cfg ts4 cs6 "SAME-AS" ncsid eid
        (findOrCreateSet ncid ncsid eid st₁) hD hdb eid
      simp only [h6, h4, hci, eN1, h6b, h4b, hai, eN2, ok_bind, eSet, eCiel, pure,
        Except.pure]
    next hq2 =>
      exact absurd h (by simp)

theorem replay_create_external_mapping {cfg : Config} {mt fu tsu tcc eid : String}
    {st₁ st₁' : SyncState}
    (h : create_external_mapping cfg mt fu tsu tcc eid st₁ = .ok st₁')
    {D : DB} (hD : DB.Ext st₁'.db D) {st₂ : SyncState} (hdb : st₂.db = D)
    (hids : st₂.newIds = st₁.newIds) :
    create_external_mapping cfg mt fu tsu tcc eid st₂ =
      .ok { st₂ with gensym := st₂.gensym + 1 } := by
  unfold create_external_mapping at h ⊢
  obtain ⟨sn, hsn, h⟩ := bind_ok h
  obtain ⟨cs6, h6, h⟩ := bind_ok h
  obtain ⟨cid, hci, h⟩ := bind_ok h
  obtain ⟨ncid, hnc, h⟩ := bind_ok h
  obtain ⟨fs4, h4, h⟩ := bind_ok h
  simp only [pure, Except.pure, Except.ok.injEq] at h
  subst h
  have hD_rm := (step_create_ciel_mapping _ _ _ _ _ _ _).ext.comp hD
  have hD_mt := (ext_findOrCreateRefMap _ _ _ _ _).comp hD_rm
  have hD_tm := (ext_findOrCreateMapType _ _).comp hD_mt
  have hD_src := (ext_findOrCreateTerm _ _ _).comp hD_tm
  have eN := replay_get_new_id hnc hids
  have e1 := replay_findOrCreateSource (cfg.omrsIdOfOclId sn) st₁ hD_src hdb
  have e2 := replay_findOrCreateTerm tcc
    (findOrCreateSource (cfg.omrsIdOfOclId sn) st₁).1.concept_source_id
    (findOrCreateSource (cfg.omrsIdOfOclId sn) st₁).2 hD_tm hdb
  have e3 := replay_findOrCreateMapType mt
    (findOrCreateTerm tcc
      (findOrCreateSource (cfg.omrsIdOfOclId sn) st₁).1.concept_source_id
      (findOrCreateSource (cfg.omrsIdOfOclId sn) st₁).2).2 hD_mt hdb
  have e4 := replay_findOrCreateRefMap ncid
    (findOrCreateTerm tcc
      (findOrCreateSource (cfg.omrsIdOfOclId sn) st₁).1.concept_source_id
      (findOrCreateSource (cfg.omrsIdOfOclId sn) st₁).2).1.concept_reference_term_id
    (findOrCreateMapType mt
      (findOrCreateTerm tcc
        (findOrCreateSource (cfg.omrsIdOfOclId sn) st₁).1.concept_source_id
        (findOrCreateSource (cfg.omrsIdOfOclId sn) st₁).2).2).1.concept_map_type_id
    eid
    (findOrCreateMapType mt
      (findOrCreateTerm tcc
        (findOrCreateSource (cfg.omrsIdOfOclId sn) st₁).1.concept_source_id
        (findOrCreateSource (cfg.omrsIdOfOclId sn) st₁).2).2).2 hD_rm hdb eid
  have eCiel := replay_create_ciel_mapping cfg fs4 (toString cid) mt ncid
    (genUuid (findOrCreateRefMap ncid
      (findOrCreateTerm tcc
        (findOrCreateSource (cfg.omrsIdOfOclId sn) st₁).1.concept_source_id
        (findOrCreateSource (cfg.omrsIdOfOclId sn) st₁).2).1.concept_reference_term_id
      (findOrCreateMapType mt
        (findOrCreateTerm tcc
          (findOrCreateSource (cfg.omrsIdOfOclId sn) st₁).1.concept_source_id
          (findOrCreateSource (cfg.omrsIdOfOclId sn) st₁).2).2).1.concept_map_type_id
      eid
      (findOrCreateMapType mt
        (findOrCreateTerm tcc
          (findOrCreateSource (cfg.omrsIdOfOclId sn) st₁).1.concept_source_id
          (findOrCreateSource (cfg.omrsIdOfOclId sn) st₁).2).2).2).gensym)
    _ hD (show ({ st₂ with gensym := st₂.gensym + 1 }).db = D from hdb)
    (genUuid st₂.gensym)
  simp only [hsn, h6, hci, eN, h4, ok_bind, e1, e2, e3, e4, eCiel, pure, Except.pure]

theorem replay_internalBranch {cfg : Config} {r : MappingRecord} {st₁ st₁' : SyncState}
    (h : internalBranch cfg r st₁ = .ok st₁')
    {D : DB} (hD : DB.Ext st₁'.db D) {st₂ : SyncState} (hdb : st₂.db = D)
    (hids : st₂.newIds = st₁.newIds) :
    ∃ st₂', internalBranch cfg r st₂ = .ok st₂' ∧ st₂'.db = D ∧
      st₂'.newIds = st₂.newIds := by
  unfold internalBranch at h ⊢
  split at h
  next hq =>
    rw [if_pos hq]
    obtain ⟨mtv, hmt, h⟩ := bind_ok h
    obtain ⟨fuv, hfu, h⟩ := bind_ok h
    obtain ⟨tuv, htu, h⟩ := bind_ok h
    obtain ⟨eidv, heid, h⟩ := bind_ok h
    have e := replay_create_internal_mapping h hD
      (show ({ st₂ with trace := st₂.trace ++ [Event.internalMapping r] }).db = D
        from hdb)
      (show ({ st₂ with trace := st₂.trace ++ [Event.internalMapping r] }).newIds =
        ({ st₁ with trace := st₁.trace ++ [Event.internalMapping r] }).newIds
        from hids)
    refine ⟨{ st₂ with trace := st₂.trace ++ [Event.internalMapping r] }, ?_, hdb, rfl⟩
    simp only [hmt, hfu, htu, heid, ok_bind]
    exact e
  next hq =>
    rw [if_neg hq]
    cases h
    exact ⟨st₂, rfl, hdb, rfl⟩

theorem replay_externalBranch {cfg : Config} {r : MappingRecord} {st₁ st₁' : SyncState}
    (h : externalBranch cfg r st₁ = .ok st₁')
    {D : DB} (hD : DB.Ext st₁'.db D) {st₂ : SyncState} (hdb : st₂.db = D)
    (hids : st₂.newIds = st₁.newIds) :
    ∃ st₂', externalBranch cfg r st₂ = .ok st₂' ∧ st₂'.db = D ∧
      st₂'.newIds = st₂.newIds := by
  unfold externalBranch at h ⊢
  split at h
  next hq =>
    rw [if_pos hq]
    obtain ⟨mtv, hmt, h⟩ := bind_ok h
    obtain ⟨fuv, hfu, h⟩ := bind_ok h
    obtain ⟨tsuv, htsu, h⟩ := bind_ok h
    obtain ⟨tccv, htcc, h⟩ := bind_ok h
    obtain ⟨eidv, heid, h⟩ := bind_ok h
    have e := replay_create_external_mapping h hD
      (show ({ st₂ with trace := st₂.trace ++ [Event.externalMapping r] }).db = D
        from hdb)
      (show ({ st₂ with trace := st₂.trace ++ [Event.externalMapping r] }).newIds =
        ({ st₁ with trace := st₁.trace ++ [Event.externalMapping r] }).newIds
        from hids)
    refine ⟨{ st₂ with
      gensym := st₂.gensym + 1,
      trace := st₂.trace ++ [Event.externalMapping r] }, ?_, hdb, rfl⟩
    simp only [hmt, hfu, htsu, htcc, heid, ok_bind]
    exact e
  next hq =>
    rw [if_neg hq]
    cases h
    exact ⟨st₂, rfl, hdb, rfl⟩

theorem replay_sync_mapping_one {cfg : Config} {r : MappingRecord} {st₁ st₁' : SyncState}
    (h : sync_mapping_one cfg r st₁ = .ok st₁')
    {D : DB} (hD : DB.Ext st₁'.db D) {st₂ : SyncState} (hdb : st₂.db = D)
    (hids : st₂.newIds = st₁.newIds) :
    ∃ st₂', sync_mapping_one cfg r st₂ = .ok st₂' ∧ st₂'.db = D ∧
      st₂'.newIds = st₂.newIds := by
  unfold sync_mapping_one at h ⊢
  obtain ⟨stm, hm, h⟩ := bind_ok h
  have hD_m : DB.Ext stm.db D := (externalBranch_facts h).1.comp hD
  obtain ⟨st₂m, e1, hdb1, hids1⟩ := replay_internalBranch hm hD_m hdb hids
  obtain ⟨st₂', e2, hdb2, hids2⟩ := replay_externalBranch h hD hdb1
    (hids1.trans (hids.trans ((internalBranch_facts hm).2.1).symm))
  refine ⟨st₂', ?_, hdb2, hids2.trans hids1⟩
  rw [e1, ok_bind]
  exact e2

theorem replay_sync_mapping {cfg : Config} {ms : List MappingRecord} :
    ∀ {st₁ st₁' : SyncState}, sync_mapping cfg ms st₁ = .ok st₁' →
    ∀ {D : DB}, DB.Ext st₁'.db D →
    ∀ {st₂ : SyncState}, st₂.db = D → st₂.newIds = st₁.newIds →
    ∃ st₂', sync_mapping cfg ms st₂ = .ok st₂' ∧ st₂'.db = D ∧
      st₂'.newIds = st₂.newIds := by
  induction ms with
  | nil =>
    intro st₁ st₁' h D hD st₂ hdb hids
    unfold sync_mapping at h
    cases h
    exact ⟨st₂, rfl, hdb, rfl⟩
  | cons m rest ih =>
    intro st₁ st₁' h D hD st₂ hdb hids
    unfold sync_mapping at h
    obtain ⟨stm, hm, h⟩ := bind_ok h
    have hD_m : DB.Ext stm.db D := (sync_mapping_facts h).1.comp hD
    obtain ⟨st₂m, e1, hdb1, hids1⟩ := replay_sync_mapping_one hm hD_m hdb hids
    obtain ⟨st₂', e2, hdb2, hids2⟩ := ih h hD hdb1
      (hids1.trans (hids.trans ((sync_mapping_one_facts hm).2.1).symm))
    refine ⟨st₂', ?_, hdb2, hids2.trans hids1⟩
    unfold sync_mapping
    rw [e1, ok_bind]
    exact e2

/-- Re-running `sync_db` on the final state of a successful run succeeds and
leaves every table of the relational store exactly as it was. -/
theorem sync_db_idem {cfg : Config} {cs : List ConceptRecord}
    {ms : List MappingRecord} {st st₁ : SyncState}
    (h₁ : sync_db cfg cs ms st = .ok st₁) :
    ∃ st₂, sync_db cfg cs ms st₁ = .ok st₂ ∧ st₂.db = st₁.db := by
  unfold sync_db at h₁ ⊢
  obtain ⟨stm, hm, h₁⟩ := bind_ok h₁
  have hD_m : DB.Ext stm.db st₁.db := (sync_mapping_facts h₁).1
  obtain ⟨st₂m, e1, hdb1, hids1⟩ := replay_sync_concept_loop hm hD_m
    (show ({ st₁ with newIds := ([] : List (Nat × Nat)) }).db = st₁.db from rfl)
    (show ({ st₁ with newIds := ([] : List (Nat × Nat)) }).newIds =
      ({ st with newIds := ([] : List (Nat × Nat)) }).newIds from rfl)
  obtain ⟨st₂', e2, hdb2, hids2⟩ := replay_sync_mapping h₁ (DB.Ext.rfl st₁.db) hdb1 hids1
  refine ⟨st₂', ?_, hdb2⟩
  dsimp only
  rw [e1, ok_bind]
  exact e2

/-! ## Trace, table-preservation and export characterization lemmas -/

theorem internalBranch_trace {cfg : Config} {r : MappingRecord} {st st' : SyncState}
    (hq : r.to_concept_url.isSome = true) (h : internalBranch cfg r st = .ok st') :
    st'.trace = st.trace ++ [Event.internalMapping r] := by
  unfold internalBranch at h
  rw [if_pos hq] at h
  obtain ⟨mtv, _, h⟩ := bind_ok h
  obtain ⟨fuv, _, h⟩ := bind_ok h
  obtain ⟨tuv, _, h⟩ := bind_ok h
  obtain ⟨eidv, _, h⟩ := bind_ok h
  exact (step_create_internal_mapping h).tr

theorem externalBranch_trace {cfg : Config} {r : MappingRecord} {st st' : SyncState}
    (hq : r.to_source_url.isSome = true) (h : externalBranch cfg r st = .ok st') :
    st'.trace = st.trace ++ [Event.externalMapping r] := by
  unfold externalBranch at h
  rw [if_pos hq] at h
  obtain ⟨mtv, _, h⟩ := bind_ok h
  obtain ⟨fuv, _, h⟩ := bind_ok h
  obtain ⟨tsuv, _, h⟩ := bind_ok h
  obtain ⟨tccv, _, h⟩ := bind_ok h
  obtain ⟨eidv, _, h⟩ := bind_ok h
  exact (step_create_external_mapping h).tr

theorem internalBranch_skip {cfg : Config} {r : MappingRecord} (st : SyncState)
    (hq : r.to_concept_url = none) : internalBranch cfg r st = .ok st := by
  unfold internalBranch
  rw [if_neg (by simp [hq])]
  rfl

theorem externalBranch_skip {cfg : Config} {r : MappingRecord} (st : SyncState)
    (hq : r.to_source_url = none) : externalBranch cfg r st = .ok st := by
  unfold externalBranch
  rw [if_neg (by simp [hq])]
  rfl

/-- `create_ciel_mapping` never touches the `concept_answers` table. -/
theorem ciel_answers (cfg : Config) (ts ci mt : String) (iad : Nat) (eid : String)
    (st : SyncState) :
    (create_ciel_mapping cfg ts ci mt iad eid st).db.concept_answers =
      st.db.concept_answers := by
  have a1 : ∀ (n : String) (s : SyncState),
      (findOrCreateSource n s).2.db.concept_answers = s.db.concept_answers := by
    intro n s
    unfold findOrCreateSource
    cases h : s.db.reference_sources.find? (fun r => r.name == n) <;> simp only [h]
  have a2 : ∀ (c : String) (i : Nat) (s : SyncState),
      (findOrCreateTerm c i s).2.db.concept_answers = s.db.concept_answers := by
    intro c i s
    unfold findOrCreateTerm
    cases h : s.db.reference_terms.find?
        (fun r => r.code == c && r.concept_source_id == i) <;> simp only [h]
  have a3 : ∀ (n : String) (s : SyncState),
      (findOrCreateMapType n s).2.db.concept_answers = s.db.concept_answers := by
    intro n s
    unfold findOrCreateMapType
    cases h : s.db.map_types.find? (fun r => r.name == n) <;> simp only [h]
  have a4 : ∀ (q t m : Nat) (u : String) (s : SyncState),
      (findOrCreateRefMap q t m u s).db.concept_answers = s.db.concept_answers := by
    intro q t m u s
    unfold findOrCreateRefMap
    cases h : s.db.reference_maps.find?
        (fun r => r.concept_id == q && r.concept_reference_term_id == t &&
          r.map_type_id == m) <;> simp only [h]
  unfold create_ciel_mapping
  rw [a4, a3, a2, a1]

/-- Characterization of the export loop: the emitted records are the per-edge
classification results in edge order, and the counters count the self /
internal / external edges. -/
theorem export_char (cfg : Config) (cid : Nat) : ∀ (edges : List RefEdge),
    export_concept_mappings cfg cid edges =
      (edges.filterMap (edgeRecord cfg cid),
       ⟨(edges.filter fun e =>
          (e.source_name == cfg.org_id) && !(toString cid == e.term_code)).length,
        (edges.filter fun e => !(e.source_name == cfg.org_id)).length,
        (edges.filter (isSelfEdge cfg cid)).length⟩) := by
  intro edges
  induction edges with
  | nil => rfl
  | cons e rest ih =>
    unfold export_concept_mappings
    rw [ih]
    by_cases h1 : (e.source_name == cfg.org_id) = true
    · by_cases h2 : (toString cid == e.term_code) = true
      · simp [edgeRecord, isSelfEdge, h1, h2]
      · simp [edgeRecord, isSelfEdge, h1, h2]
    · simp [edgeRecord, isSelfEdge, h1]

/-! ## Claim theorems -/

/-- **C1 (counterexample).** A mapping record carrying neither a
`to_concept_url` nor a `to_source_url` key is silently skipped: `sync_mapping`
succeeds and leaves the state untouched instead of failing with an
`UnclassifiableMappingError` (no such error exists in the code).  Moreover the
internal dispatch for a map type other than Q-AND-A / CONCEPT-SET does not
create a generic internal reference map but fails with `UnboundLocalError` on
the never-assigned counter `cnt_ocl_mapref`. -/
theorem claim_c1_counterexample :
    sync_mapping cfg0 [mShapeless] init0 = .ok init0 ∧
    create_internal_mapping cfg0 "SAME-AS" "/orgs/ORG/sources/SRC/concepts/1/"
      "/orgs/ORG/sources/SRC/concepts/2/" "uuid-X" stResolved =
      .error (.unboundLocal "cnt_ocl_mapref") :=
  ⟨by decide, by decide⟩

/-- **C1 (amended).** On import, a mapping record carrying `to_concept_url` is
dispatched down the internal branch (Q-AND-A creates a `ConceptAnswer`,
CONCEPT-SET a `ConceptSet` membership, and any other map type fails with an
`UnboundLocalError` instead of creating a generic internal reference map); a
record carrying `to_source_url` is dispatched down the external branch; and a
record carrying neither key is silently skipped with no error — no
`UnclassifiableMappingError` exists. -/
theorem claim_c1_theorem :
    (∀ (cfg : Config) (st : SyncState) (r : MappingRecord),
      r.to_concept_url = none → r.to_source_url = none →
      sync_mapping_one cfg r st = .ok st) ∧
    (∀ (cfg : Config) (st : SyncState) (mt fu tu eid : String),
      mt ≠ "Q-AND-A" → mt ≠ "CONCEPT-SET" →
      create_internal_mapping cfg mt fu tu eid st =
        .error (.unboundLocal "cnt_ocl_mapref")) ∧
    (∀ (cfg : Config) (st st' : SyncState) (r : MappingRecord),
      r.to_concept_url.isSome = true → sync_mapping_one cfg r st = .ok st' →
      Event.internalMapping r ∈ st'.trace) ∧
    (∀ (cfg : Config) (st st' : SyncState) (r : MappingRecord),
      r.to_source_url.isSome = true → sync_mapping_one cfg r st = .ok st' →
      Event.externalMapping r ∈ st'.trace) ∧
    ((okState (sync_mapping_one cfg0 mqa stResolved) init0).db.concept_answers.map
      (fun a => (a.question_concept_id, a.answer_concept_id)) = [(1, 2)]) ∧
    ((okState (sync_mapping_one cfg0 mcs stResolved) init0).db.concept_sets.map
      (fun a => (a.concept_id, a.concept_set_owner_id)) = [(2, 1)]) := by
  refine ⟨?_, ?_, ?_, ?_, by decide, by decide⟩
  · intro cfg st r h1 h2
    unfold sync_mapping_one
    rw [internalBranch_skip st h1, ok_bind, externalBranch_skip st h2]
  · intro cfg st mt fu tu eid h1 h2
    unfold create_internal_mapping
    rw [if_neg (by simp [h1]), if_neg (by simp [h2])]
  · intro cfg st st' r hq h
    unfold sync_mapping_one at h
    obtain ⟨stm, hm, h⟩ := bind_ok h
    have t1 := internalBranch_trace hq hm
    obtain ⟨-, -, es, t2, -⟩ := externalBranch_facts h
    rw [t2, t1]
    simp
  · intro cfg st st' r hq h
    unfold sync_mapping_one at h
    obtain ⟨stm, hm, h⟩ := bind_ok h
    have t2 := externalBranch_trace hq h
    rw [t2]
    simp

/-- **C1 (witness).** Concrete instance of the silent-skip conjunct. -/
theorem claim_c1_witness :
    sync_mapping_one cfg0 mShapeless7 init0 = .ok init0 :=
  claim_c1_theorem.1 cfg0 init0 mShapeless7 rfl rfl

/-- **C2 (counterexample).** Importing concept 100 (class Diagnosis, datatype
N/A, name "Fever") followed by the SAME-AS mapping whose from and to URLs both
reference concept 100 does not drop the mapping as a self-mapping: the import
has no self-mapping check, and the run aborts with an `UnboundLocalError`
raised by the generic branch of `create_internal_mapping`. -/
theorem claim_c2_counterexample :
    sync_db cfg0 [c100] [m100] init0 = .error (.unboundLocal "cnt_ocl_mapref") := by
  decide

/-- **C2 (amended).** The concept phase creates the concept and its name
exactly once, but the SAME-AS self-mapping is not dropped and not counted:
processing it fails with an `UnboundLocalError` (the generic internal-mapping
branch reads the never-assigned local `cnt_ocl_mapref`), and no relational row
is persisted for the mapping. -/
theorem claim_c2_theorem :
    ∃ stC, sync_concept_loop [c100] { init0 with newIds := [] } = .ok stC ∧
      (stC.db.concepts.map fun r => r.uuid) = ["uuid-A"] ∧
      (stC.db.concept_names.map fun r => r.name) = ["Fever"] ∧
      stC.db.concept_answers = [] ∧ stC.db.concept_sets = [] ∧
      stC.db.reference_maps = [] ∧
      sync_mapping cfg0 [m100] stC = .error (.unboundLocal "cnt_ocl_mapref") :=
  ⟨okState (sync_concept_loop [c100] { init0 with newIds := [] }) init0, by decide⟩

/-- **C10.** A mapping record carrying both a `to_concept_url` and a
`to_source_url` key is processed down both paths — first as an internal
mapping, then additionally as an external mapping — because the two shape
checks of the mapping loop are independent; the trace records the internal
dispatch before the external one, and concretely one both-keyed record
creates a `ConceptAnswer` row and external reference rows in a single pass. -/
theorem claim_c10_theorem :
    (∀ (cfg : Config) (st st' : SyncState) (r : MappingRecord),
      r.to_concept_url.isSome = true → r.to_source_url.isSome = true →
      sync_mapping_one cfg r st = .ok st' →
      ∃ stMid, internalBranch cfg r st = .ok stMid ∧
        externalBranch cfg r stMid = .ok st' ∧
        st'.trace = st.trace ++ [Event.internalMapping r, Event.externalMapping r]) ∧
    (isOk (sync_mapping_one cfg0 mBoth stResolved) = true ∧
      (okState (sync_mapping_one cfg0 mBoth stResolved) init0).db.concept_answers.length
        = 1 ∧
      (okState (sync_mapping_one cfg0 mBoth stResolved) init0).db.reference_maps.length
        ≠ 0 ∧
      (okState (sync_mapping_one cfg0 mBoth stResolved) init0).trace =
        [Event.internalMapping mBoth, Event.externalMapping mBoth]) := by
  refine ⟨?_, by decide, by decide, by decide, by decide⟩
  · intro cfg st st' r h1 h2 h
    unfold sync_mapping_one at h
    obtain ⟨stm, hm, h⟩ := bind_ok h
    have t1 := internalBranch_trace h1 hm
    have t2 := externalBranch_trace h2 h
    refine ⟨stm, hm, h, ?_⟩
    rw [t2, t1, List.append_assoc]
    rfl

/-- **C10 (witness).** Concrete both-keyed record processed down both paths. -/
theorem claim_c10_witness :
    ∃ stMid, internalBranch cfg0 mBoth stResolved = .ok stMid ∧
      externalBranch cfg0 mBoth stMid =
        .ok (okState (sync_mapping_one cfg0 mBoth stResolved) init0) ∧
      (okState (sync_mapping_one cfg0 mBoth stResolved) init0).trace =
        stResolved.trace ++ [Event.internalMapping mBoth, Event.externalMapping mBoth] :=
  claim_c10_theorem.1 cfg0 stResolved
    (okState (sync_mapping_one cfg0 mBoth stResolved) init0) mBoth rfl rfl (by decide)

/-- **C3.** Running the import a second time on the same concept and mapping
batch succeeds and leaves the relational state identical to the state after
the first run: every table of the store is unchanged, so no duplicate
ConceptName, ConceptReferenceMap, ConceptAnswer, or ConceptSet row is
created, because every entity kind is looked up by its natural key before
insertion. -/
theorem claim_c3_theorem {cfg : Config} {cs : List ConceptRecord}
    {ms : List MappingRecord} {st st₁ : SyncState}
    (h : sync_db cfg cs ms st = .ok st₁) :
    ∃ st₂, sync_db cfg cs ms st₁ = .ok st₂ ∧ st₂.db = st₁.db :=
  sync_db_idem h

/-- **C3 (witness).** Second run over a concrete two-concept batch with an
internal and an external mapping. -/
theorem claim_c3_witness :
    ∃ st₂, sync_db cfg0 [c1r, c2r] [mqa, mext]
        (okState (sync_db cfg0 [c1r, c2r] [mqa, mext] init0) init0) = .ok st₂ ∧
      st₂.db = (okState (sync_db cfg0 [c1r, c2r] [mqa, mext] init0) init0).db :=
  @claim_c3_theorem cfg0 [c1r, c2r] [mqa, mext] init0 _ (by decide)

/-- **C4 (code bug).** At the failing input `cNum` — a concept record with
datatype "Numeric" whose extras supply only `units` and `hi_normal` — the
run succeeds and creates the concept, but persists no ConceptNumeric row
at all: the code constructs `ConceptNumeric(concept_id=...)` and then guards
the save behind `if numeric is None`, which is never true, so the
numeric-metadata row is never materialized (source lines 303-311). -/
theorem claim_c4_theorem :
    cNum.datatype = some "Numeric" ∧
    (cNum.extras.map Extras.units) = some (some "kg") ∧
    (cNum.extras.map Extras.hi_normal) = some (some 120) ∧
    ∃ st', sync_concept cNum init0 = .ok st' ∧
      st'.db.concepts.length = 1 ∧ st'.db.concept_numerics = [] :=
  ⟨rfl, rfl, rfl, okState (sync_concept cNum init0) init0, by decide⟩

/-- **C5.** On export, the emitted mapping records are exactly the per-edge
classification results, in edge order: a self-mapping edge (own-dictionary
source and term code equal to the concept's own identifier) emits nothing and
is only counted in the ignored-self-mappings counter; every other
own-dictionary edge emits an internal-shaped record; every foreign edge emits
an external-shaped record. -/
theorem claim_c5_theorem (cfg : Config) (cid : Nat) (edges : List RefEdge) :
    (export_concept_mappings cfg cid edges).1 =
      edges.filterMap (edgeRecord cfg cid) ∧
    (export_concept_mappings cfg cid edges).2.self_ignored =
      (edges.filter (isSelfEdge cfg cid)).length ∧
    (∀ e : RefEdge, isSelfEdge cfg cid e = true → edgeRecord cfg cid e = none) ∧
    (∀ e : RefEdge, (e.source_name == cfg.org_id) = true →
      isSelfEdge cfg cid e = false →
      ∃ rec, edgeRecord cfg cid e = some rec ∧ internalShaped rec) ∧
    (∀ e : RefEdge, (e.source_name == cfg.org_id) = false →
      ∃ rec, edgeRecord cfg cid e = some rec ∧ externalShaped rec) := by
  refine ⟨?_, ?_, ?_, ?_, ?_⟩
  · rw [export_char]
  · rw [export_char]
  · intro e hself
    unfold isSelfEdge at hself
    simp only [Bool.and_eq_true] at hself
    unfold edgeRecord
    rw [if_pos hself.1, if_pos hself.2]
  · intro e h1 h2
    unfold isSelfEdge at h2
    rw [h1] at h2
    simp only [Bool.true_and] at h2
    unfold edgeRecord
    rw [if_pos h1, if_neg (by simp [h2])]
    exact ⟨_, rfl, by simp [generate_internal_mapping, internalShaped]⟩
  · intro e h1
    unfold edgeRecord
    rw [if_neg (by simp [h1])]
    exact ⟨_, rfl, by simp [generate_external_mapping, externalShaped]⟩

/-- **C5 (witness).** Concrete edges of concept 7: the self edge is counted
and classified to no record. -/
theorem claim_c5_witness :
    (export_concept_mappings cfg0 7 [eSelf, eOwn, eForeign]).2.self_ignored =
      ([eSelf, eOwn, eForeign].filter (isSelfEdge cfg0 7)).length ∧
    edgeRecord cfg0 7 eSelf = none :=
  ⟨(claim_c5_theorem cfg0 7 [eSelf, eOwn, eForeign]).2.1,
   (claim_c5_theorem cfg0 7 [eSelf, eOwn, eForeign]).2.2.1 eSelf (by decide)⟩

/-- **C6.** The relational rows created for an imported mapping use the
newly assigned relational identifiers recorded by the Identifier Resolver
during concept materialization, not the literal interchange identifiers:
whatever identifiers `n1`, `n2` the resolver assigned to original ids 1 and 2,
the created ConceptAnswer row carries `(n1, n2)`; concretely, importing
concepts 1 and 2 into a store already holding three concepts assigns them
relational ids 4 and 5, and the Q-AND-A mapping row references (4, 5), not
the literal (1, 2). -/
theorem claim_c6_theorem :
    (∀ (cfg : Config) (st : SyncState) (eid : String) (n1 n2 : Nat),
      get_new_id st 1 = .ok n1 → get_new_id st 2 = .ok n2 →
      st.db.concept_answers = [] →
      ∃ st', create_internal_mapping cfg "Q-AND-A"
          "/orgs/ORG/sources/SRC/concepts/1/" "/orgs/ORG/sources/SRC/concepts/2/"
          eid st = .ok st' ∧
        (st'.db.concept_answers.map fun a =>
          (a.question_concept_id, a.answer_concept_id)) = [(n1, n2)]) ∧
    (isOk (sync_db cfg0 [c1r, c2r] [mqa] init3) = true ∧
      (okState (sync_db cfg0 [c1r, c2r] [mqa] init3) init0).newIds = [(1, 4), (2, 5)] ∧
      ((okState (sync_db cfg0 [c1r, c2r] [mqa] init3) init0).db.concept_answers.map
        fun a => (a.question_concept_id, a.answer_concept_id)) = [(4, 5)] ∧
      ((4, 5) : Nat × Nat) ≠ (1, 2)) := by
  refine ⟨?_, by decide, by decide, by decide, by decide⟩
  · intro cfg st eid n1 n2 h1 h2 hemp
    have e6a : urlSeg "/orgs/ORG/sources/SRC/concepts/1/" 6 = .ok "1" := rfl
    have e4a : urlSeg "/orgs/ORG/sources/SRC/concepts/1/" 4 = .ok "SRC" := rfl
    have e6b : urlSeg "/orgs/ORG/sources/SRC/concepts/2/" 6 = .ok "2" := rfl
    have e4b : urlSeg "/orgs/ORG/sources/SRC/concepts/2/" 4 = .ok "SRC" := rfl
    have ei1 : pyInt "1" = .ok 1 := rfl
    have ei2 : pyInt "2" = .ok 2 := rfl
    have hAnsEq : (findOrCreateAnswer n1 n2 eid st).db.concept_answers.map
        (fun a => (a.question_concept_id, a.answer_concept_id)) = [(n1, n2)] := by
      unfold findOrCreateAnswer
      rw [hemp]
      simp
    refine ⟨create_ciel_mapping cfg "SRC" "1" "SAME-AS" n2 eid
        (findOrCreateAnswer n1 n2 eid st), ?_, ?_⟩
    · unfold create_internal_mapping
      rw [if_pos (by decide)]
      simp only [e6a, e4a, ei1, h1, e6b, e4b, ei2, h2, ok_bind, pure, Except.pure]
    · rw [ciel_answers]
      exact hAnsEq

/-- **C6 (witness).** Resolver entries 1 ↦ 1, 2 ↦ 2 on an empty store. -/
theorem claim_c6_witness :
    ∃ st', create_internal_mapping cfg0 "Q-AND-A"
        "/orgs/ORG/sources/SRC/concepts/1/" "/orgs/ORG/sources/SRC/concepts/2/"
        "uuid-W" stResolved = .ok st' ∧
      (st'.db.concept_answers.map fun a =>
        (a.question_concept_id, a.answer_concept_id)) = [(1, 2)] :=
  claim_c6_theorem.1 cfg0 stResolved "uuid-W" 1 2 rfl rfl rfl

/-- **C7 (counterexample).** A concept record without a `concept_class` field
fails with a plain `KeyError`, not a `MalformedRecordError` (no such error
exists in the code), and a mapping record lacking both `to_concept_url` and
`to_source_url` does not fail at all — it is silently skipped. -/
theorem claim_c7_counterexample :
    sync_concept cNoClass init0 = .error (.keyError "concept_class") ∧
    sync_mapping cfg0 [mShapeless7] init0 = .ok init0 :=
  ⟨by decide, by decide⟩

/-- **C7 (amended).** A concept record missing the required `concept_class`
field fails with a `KeyError` naming the field, surfaced immediately and
aborting the batch with no partial-record recovery; a mapping record lacking
both `to_concept_url` and `to_source_url` does not fail — it is silently
skipped.  No `MalformedRecordError` exists. -/
theorem claim_c7_theorem :
    (∀ (st : SyncState) (c : ConceptRecord), c.concept_class = none →
      sync_concept c st = .error (.keyError "concept_class")) ∧
    (∀ (cfg : Config) (st : SyncState) (cs : List ConceptRecord)
      (ms : List MappingRecord) (c : ConceptRecord), c.concept_class = none →
      sync_db cfg (c :: cs) ms st = .error (.keyError "concept_class")) ∧
    (∀ (cfg : Config) (st : SyncState) (r : MappingRecord),
      r.to_concept_url = none → r.to_source_url = none →
      sync_mapping_one cfg r st = .ok st) := by
  have key : ∀ (st : SyncState) (c : ConceptRecord), c.concept_class = none →
      sync_concept c st = .error (.keyError "concept_class") := by
    intro st c hc
    unfold sync_concept getConceptClass
    rw [hc]
    rfl
  refine ⟨key, ?_, ?_⟩
  · intro cfg st cs ms c hc
    unfold sync_db sync_concept_loop
    dsimp only
    rw [key _ c hc]
    rfl
  · intro cfg st r h1 h2
    unfold sync_mapping_one
    rw [internalBranch_skip st h1, ok_bind, externalBranch_skip st h2]

/-- **C7 (witness).** A batch led by the class-less record aborts with the
`KeyError`. -/
theorem claim_c7_witness :
    sync_db cfg0 [cNoClass] [m100] init0 = .error (.keyError "concept_class") :=
  claim_c7_theorem.2.1 cfg0 init0 [] [m100] cNoClass rfl

/-- **C8.** When a find-or-create operation finds an existing row by the
entity's natural key it returns that row with all its fields unchanged, and a
whole import run performs no update of existing rows: after a successful
`sync_db`, every table equals the table before the run with zero or more new
rows appended. -/
theorem claim_c8_theorem {cfg : Config} {cs : List ConceptRecord}
    {ms : List MappingRecord} {st st' : SyncState}
    (h : sync_db cfg cs ms st = .ok st') :
    DB.Ext st.db st'.db ∧
    (∀ (n : String) (s : SyncState) (r : ConceptReferenceSourceRow),
      s.db.reference_sources.find? (fun x => x.name == n) = some r →
      findOrCreateSource n s = (r, s)) ∧
    (∀ (code : String) (i : Nat) (s : SyncState) (r : ConceptReferenceTermRow),
      s.db.reference_terms.find?
        (fun x => x.code == code && x.concept_source_id == i) = some r →
      findOrCreateTerm code i s = (r, s)) ∧
    (∀ (n : String) (s : SyncState) (r : ConceptMapTypeRow),
      s.db.map_types.find? (fun x => x.name == n) = some r →
      findOrCreateMapType n s = (r, s)) := by
  refine ⟨sync_db_ext h, ?_, ?_, ?_⟩
  · intro n s r hf
    unfold findOrCreateSource
    simp only [hf]
  · intro code i s r hf
    unfold findOrCreateTerm
    simp only [hf]
  · intro n s r hf
    unfold findOrCreateMapType
    simp only [hf]

/-- **C8 (witness).** Append-only growth on a concrete run. -/
theorem claim_c8_witness :
    DB.Ext init0.db (okState (sync_db cfg0 [c1r, c2r] [mqa, mext] init0) init0).db :=
  (@claim_c8_theorem cfg0 [c1r, c2r] [mqa, mext] init0 _ (by decide)).1

/-- **C9.** In every synchronization run all concept records of the batch are
processed — and their resolver entries assigned — before any mapping record
is handled: the instrumentation trace of a successful run is the concept
events for the whole batch, in order, followed only by mapping events, and
every concept record carrying an id has a resolver entry in the final
state. -/
theorem claim_c9_theorem {cfg : Config} {cs : List ConceptRecord}
    {ms : List MappingRecord} {st st' : SyncState}
    (h : sync_db cfg cs ms st = .ok st') :
    (∃ es, st'.trace = st.trace ++ cs.map Event.conceptProcessed ++ es ∧
      ∀ e ∈ es, e.isMappingEvent = true) ∧
    (∀ c ∈ cs, ∀ i, c.id = some i → ∃ nid, (i, nid) ∈ st'.newIds) := by
  unfold sync_db at h
  obtain ⟨stm, hm, h⟩ := bind_ok h
  obtain ⟨ext1, tr1, idsE, mem1⟩ := sync_concept_loop_facts hm
  obtain ⟨ext2, ids2, es, tr2, hes⟩ := sync_mapping_facts h
  constructor
  · refine ⟨es, ?_, hes⟩
    rw [tr2, tr1]
  · intro c hc i hi
    obtain ⟨nid, hmem⟩ := mem1 c hc i hi
    refine ⟨nid, ?_⟩
    rw [ids2]
    exact hmem

/-- **C9 (witness).** Trace shape of a concrete run. -/
theorem claim_c9_witness :
    ∃ es, (okState (sync_db cfg0 [c1r, c2r] [mqa, mext] init0) init0).trace =
        init0.trace ++ [c1r, c2r].map Event.conceptProcessed ++ es ∧
      ∀ e ∈ es, e.isMappingEvent = true :=
  (@claim_c9_theorem cfg0 [c1r, c2r] [mqa, mext] init0 _ (by decide)).1

end Omrs
